import Mathlib

/-!
The SQL statement builder of datamapper-cpp

A shallow embedding of `dm::sql::SqlStatementBuilder`
(`include/datamappercpp/sql/detail/SqlStatementBuilder.h`) together with the
`Person` mapping of `test/src/main.cpp`, and theorems about the SQL text the
builder produces.

`std::ostringstream` is embedded as a character buffer with a put pointer and a
fail flag, so that `tellp`, `seekp` and the overwriting `<<` after a seek behave
as in the source. `std::string::erase(end() - 1)` is embedded as a partial
operation that has no result on the empty string.

`toMBStr` of the same header is embedded over a `wcstombs` whose locale is a
parameter. The repository, whose header is not among the sources, is modelled
from the specification as operations on a table of rows.
-/

namespace dm

/-! ## Field descriptors and mappings -/

/-- Modelled from the spec: the SQL type tag of a field descriptor
(`Field.h` is not part of the available sources). The spec lists the tags
`TEXT`, `INT` and `REAL`; the test mapping uses exactly these three. -/
inductive SqlType where
  | TEXT
  | INT
  | REAL
deriving DecidableEq, Repr

/-- Modelled from the spec: the text of an SQL type tag, as it appears in a
column declaration (`Field.h` is not part of the available sources). -/
def SqlType.text : SqlType → String
  | .TEXT => "TEXT"
  | .INT => "INT"
  | .REAL => "REAL"

/-- Modelled from the spec: a field descriptor `dm::Field<T>` is a column
name, an SQL type tag and an optional column constraint (`Field.h` is not part
of the available sources). -/
structure Field where
  name : String
  sqlType : SqlType
  constraint : Option String
deriving DecidableEq, Repr

/-- A mapping (schema descriptor): `getLabel()`, the fields that `accept`
visits, in the order it visits them, and `customCreateStatements()`. -/
structure Mapping where
  getLabel : String
  fields : List Field
  customCreateStatements : String
deriving DecidableEq, Repr

/-- The call `Mapping::accept(v, entity)`: one `visitField` per field, in the
declared order, threading the state of the visitor. -/
def Mapping.accept {σ : Type} (m : Mapping) (visitField : Field → σ → σ) (v : σ) : σ :=
  m.fields.foldl (fun st f => visitField f st) v

/-! ## Output string streams -/

/-- The state of a `std::ostringstream`: the characters written so far, the
put pointer and the fail flag. -/
structure OStringStream where
  buf : List Char
  pos : Nat
  failed : Bool
deriving DecidableEq, Repr

namespace OStringStream

/-- A freshly constructed `std::ostringstream`. -/
def empty : OStringStream := ⟨[], 0, false⟩

/-- The insertion `stream << s`: the characters of `s` are stored at the put
pointer, overwriting what is there and extending the buffer past its end; a
failed stream ignores the insertion. -/
def write (o : OStringStream) (s : String) : OStringStream :=
  if o.failed then o
  else
    { buf := o.buf.take o.pos ++ s.data ++ o.buf.drop (o.pos + s.data.length)
      pos := o.pos + s.data.length
      failed := false }

/-- The call `tellp()`: the put pointer, or `-1` on a failed stream. -/
def tellp (o : OStringStream) : Int :=
  if o.failed then -1 else (o.pos : Int)

/-- The call `seekp(p)`: moves the put pointer to `p` when `p` lies inside the
buffer (its end included), and sets the fail flag otherwise. -/
def seekp (o : OStringStream) (p : Int) : OStringStream :=
  if o.failed then o
  else if 0 ≤ p ∧ p ≤ (o.buf.length : Int) then { o with pos := p.toNat }
  else { o with failed := true }

/-- The call `str()`: the whole buffer, wherever the put pointer is. -/
def str (o : OStringStream) : String := ⟨o.buf⟩

end OStringStream

/-- The call `s.erase(s.end() - 1)` of `std::string`: removes the last
character; on the empty string the iterator `end() - 1` is out of bounds and
there is no result. -/
def eraseLast (s : String) : Option String :=
  if s.data.isEmpty then none else some ⟨s.data.dropLast⟩

/-! ## Field visitors -/

/-- Modelled from the spec: the text `<name> <sqlType>[ <constraint>]` that
declares the column of a field (`StatementBuilderFieldVisitors.h` is not part
of the available sources). -/
def Field.declaration (f : Field) : String :=
  match f.constraint with
  | none => f.name ++ " " ++ f.sqlType.text
  | some c => f.name ++ " " ++ f.sqlType.text ++ " " ++ c

/-- Modelled from the spec: `FieldDeclarationBuilder::visitField` appends
`<name> <sqlType>[ <constraint>],` to the stream it was constructed with
(`StatementBuilderFieldVisitors.h` is not part of the available sources). -/
def FieldDeclarationBuilder.visitField (f : Field) (sql : OStringStream) : OStringStream :=
  (sql.write f.declaration).write ","

/-- Modelled from the spec: `InsertStatementFieldBuilder::visitField` appends
`<name>,` to the column-label stream and `?,` to the placeholder stream, in
lock-step (`StatementBuilderFieldVisitors.h` is not part of the available
sources). -/
def InsertStatementFieldBuilder.visitField (f : Field)
    (st : OStringStream × OStringStream) : OStringStream × OStringStream :=
  ((st.1.write f.name).write ",", (st.2.write "?").write ",")

/-- Modelled from the spec: `UpdateStatementFieldBuilder::visitField` appends
`<name>=?,` to the stream it was constructed with
(`StatementBuilderFieldVisitors.h` is not part of the available sources). -/
def UpdateStatementFieldBuilder.visitField (f : Field) (sql : OStringStream) : OStringStream :=
  ((sql.write f.name).write "=?").write ","

/-! ## The statement builder -/

namespace SqlStatementBuilder

/-- `SqlStatementBuilder::CreateTableStatement()`. -/
def CreateTableStatement (m : Mapping) : String :=
  let sql := OStringStream.empty
  let sql := ((sql.write "CREATE TABLE IF NOT EXISTS ").write m.getLabel).write
    "(id INTEGER PRIMARY KEY AUTOINCREMENT,"
  let sql := m.accept FieldDeclarationBuilder.visitField sql
  -- replace last comma with ')'
  let pos := sql.tellp
  let sql := sql.seekp (pos - 1)
  let sql := sql.write ")"
  let customStatements := m.customCreateStatements
  let sql := if !customStatements.data.isEmpty then (sql.write ";").write customStatements else sql
  sql.str

/-- `SqlStatementBuilder::InsertStatement()`; there is no result when an
`erase(end() - 1)` is applied to an empty string. -/
def InsertStatement (m : Mapping) : Option String :=
  let sql := OStringStream.empty
  let sql := ((sql.write "INSERT INTO ").write m.getLabel).write " "
  let columnLabels := OStringStream.empty
  let fieldPlaceholders := OStringStream.empty
  let built := m.accept InsertStatementFieldBuilder.visitField (columnLabels, fieldPlaceholders)
  -- remove last comma
  match eraseLast built.1.str with
  | none => none
  | some s =>
    let sql := ((sql.write "(").write s).write ")"
    match eraseLast built.2.str with
    | none => none
    | some s =>
      let sql := ((sql.write " VALUES (").write s).write ")"
      some sql.str

/-- `SqlStatementBuilder::UpdateStatement()`. -/
def UpdateStatement (m : Mapping) : String :=
  let sql := OStringStream.empty
  let sql := ((sql.write "UPDATE ").write m.getLabel).write " SET "
  let sql := m.accept UpdateStatementFieldBuilder.visitField sql
  let pos := sql.tellp
  -- remove last comma
  let sql := sql.seekp (pos - 1)
  let sql := sql.write " WHERE id=?"
  sql.str

/-- `SqlStatementBuilder::DeleteAllStatement()`. -/
def DeleteAllStatement (m : Mapping) : String :=
  let sql := OStringStream.empty
  let sql := (sql.write "DELETE FROM ").write m.getLabel
  sql.str

/-- `SqlStatementBuilder::DeleteByIdStatement()`. -/
def DeleteByIdStatement (m : Mapping) : String :=
  let sql := OStringStream.empty
  let sql := ((sql.write "DELETE FROM ").write m.getLabel).write " WHERE id=?"
  sql.str

/-- `SqlStatementBuilder::DeleteByFieldStatement(field)`. -/
def DeleteByFieldStatement (m : Mapping) (field : String) : String :=
  let sql := OStringStream.empty
  let sql := ((((sql.write "DELETE FROM ").write m.getLabel).write " WHERE ").write field).write "=?"
  sql.str

/-- `SqlStatementBuilder::SelectAllStatement()`. -/
def SelectAllStatement (m : Mapping) : String :=
  let sql := OStringStream.empty
  let sql := (sql.write "SELECT * FROM ").write m.getLabel
  sql.str

/-- `SqlStatementBuilder::SelectByFieldStatement(field)`, the one-argument
overload. -/
def SelectByFieldStatement (m : Mapping) (field : String) : String :=
  let sql := OStringStream.empty
  let sql := ((((sql.write "SELECT * FROM ").write m.getLabel).write " WHERE ").write field).write "=?"
  sql.str

/-- `SqlStatementBuilder::SelectByFieldStatement(field1, field2)`, the
two-argument overload. -/
def SelectByFieldStatement2 (m : Mapping) (field1 field2 : String) : String :=
  let sql := OStringStream.empty
  let sql := (((((sql.write "SELECT * FROM ").write m.getLabel).write " WHERE ").write field1).write
    "=? AND ").write field2
  let sql := sql.write "=?"
  sql.str

/-- `SqlStatementBuilder::SelectByFieldStatement(field1, field2, field3)`, the
three-argument overload. -/
def SelectByFieldStatement3 (m : Mapping) (field1 field2 field3 : String) : String :=
  let sql := OStringStream.empty
  let sql := (((((sql.write "SELECT * FROM ").write m.getLabel).write " WHERE ").write field1).write
    "=? AND ").write field2
  let sql := ((sql.write "=? AND ").write field3).write "=?"
  sql.str

/-- `SqlStatementBuilder::SelectByIdStatement()`. -/
def SelectByIdStatement (m : Mapping) : String :=
  SelectByFieldStatement m "id"

end SqlStatementBuilder

/-! ## The mapping of the test suite -/

/-- `PersonMapping` of `test/src/main.cpp`: label `person`, the four fields
that `accept` visits, and the index creation statement. `std::string` and
`std::wstring` fields have type tag `TEXT`, `__int64` has `INT` and `double`
has `REAL`, as the statement asserted by the test shows. -/
def PersonMapping : Mapping where
  getLabel := "person"
  fields :=
    [ ⟨"name", .TEXT, some "UNIQUE NOT NULL"⟩,
      ⟨"wname", .TEXT, none⟩,
      ⟨"age", .INT, none⟩,
      ⟨"height", .REAL, none⟩ ]
  customCreateStatements := "CREATE INDEX IF NOT EXISTS person_name_idx ON person (name)"

/-! ## Auxiliary definitions -/

/-- A stream that holds `l`, with the put pointer at the end and no failure:
the state of a stream that has only been appended to. -/
def OStringStream.atEnd (l : List Char) : OStringStream := ⟨l, l.length, false⟩

/-- The text a visitor leaves behind: every item followed by a comma. -/
def commaTerminated (xs : List String) : List Char :=
  (xs.map (fun x => x.data ++ [','])).flatten

namespace SqlStatementBuilder

/-- The suffix that `customCreateStatements()` contributes to the
`CREATE TABLE` statement. -/
def customSuffix (c : String) : String :=
  if c = "" then "" else ";" ++ c

/-- Overload resolution for the select builders: the statement that the
builder offers for a list of field names, by the number of names. There is no
overload for more than three names. -/
def selectStatementFor (m : Mapping) : List String → Option String
  | [] => some (SelectAllStatement m)
  | [f] => some (SelectByFieldStatement m f)
  | [f1, f2] => some (SelectByFieldStatement2 m f1 f2)
  | [f1, f2, f3] => some (SelectByFieldStatement3 m f1 f2 f3)
  | _ => none

/-- The variadic reference definition of the spec:
`SELECT * FROM <label>[ WHERE f1=? [AND f2=? ...]]` for any number of field
names. -/
def variadicSelectStatement (label : String) (fs : List String) : String :=
  "SELECT * FROM " ++ label ++
    (if fs.isEmpty then "" else " WHERE " ++ String.intercalate " AND " (fs.map (fun f => f ++ "=?")))

end SqlStatementBuilder

/-! ## Reading a statement back -/


/-- The pieces of a text between the occurrences of the separator `c`. -/
def splitChar (c : Char) : List Char → List (List Char)
  | [] => [[]]
  | x :: xs =>
    if x = c then [] :: splitChar c xs
    else
      match splitChar c xs with
      | [] => [[x]]
      | p :: ps => (x :: p) :: ps

/-- The text before the first occurrence of `c`. -/
def untilChar (c : Char) (s : List Char) : List Char :=
  s.takeWhile (fun x => x != c)

/-- The text after the first occurrence of `c`. -/
def afterChar (c : Char) (s : List Char) : List Char :=
  (s.dropWhile (fun x => x != c)).drop 1

/-- The characters of an unquoted SQL identifier. -/
def identChar (c : Char) : Bool :=
  c.isAlphanum || c == '_'

/-- An unquoted SQL identifier: letters, digits and underscores only. -/
def isIdentifier (s : String) : Bool :=
  s.data.all identChar

/-- A constraint clause that has no comma and no closing parenthesis of its
own, so that a column list can be read back by splitting at commas. -/
def plainConstraint : Option String → Bool
  | none => true
  | some c => c.data.all (fun ch => ch != ',' && ch != ')')

/-- A mapping whose label and field names are unquoted SQL identifiers and
whose constraints are plain. -/
def Mapping.plain (m : Mapping) : Bool :=
  isIdentifier m.getLabel &&
    m.fields.all (fun f => isIdentifier f.name && plainConstraint f.constraint)

/-- The column declarations of a `CREATE TABLE` statement: the entries of the
first parenthesised list after the first one, which declares the key. -/
def createDeclarations (stmt : String) : List String :=
  ((splitChar ',' (untilChar ')' (afterChar '(' stmt.data))).drop 1).map String.mk

/-- The column names of a `CREATE TABLE` statement: the first word of each
column declaration. -/
def createColumnNames (stmt : String) : List String :=
  (createDeclarations stmt).map (fun d => ⟨untilChar ' ' d.data⟩)

/-- The column list of an `INSERT` statement: the entries of the first
parenthesised list. -/
def insertColumnNames (stmt : String) : List String :=
  (splitChar ',' (untilChar ')' (afterChar '(' stmt.data))).map String.mk

/-- The placeholder list of an `INSERT` statement: the entries of the second
parenthesised list. -/
def insertPlaceholders (stmt : String) : List String :=
  (splitChar ',' (untilChar ')' (afterChar '(' (afterChar ')' stmt.data)))).map String.mk

/-- The assignments of an `UPDATE` statement: the fourth word, between `SET`
and `WHERE`, split at commas. -/
def updateAssignments (stmt : String) : List String :=
  (splitChar ',' ((splitChar ' ' stmt.data).getD 3 [])).map String.mk

/-- The column names of an `UPDATE` statement: the left sides of its
assignments. -/
def updateColumnNames (stmt : String) : List String :=
  (updateAssignments stmt).map (fun a => ⟨untilChar '=' a.data⟩)

/-- The column a `?` marker belongs to, given the text before the marker in
reverse: the identifier in front of the `=` that precedes the marker. -/
def markerOwner : List Char → String
  | '=' :: r => ⟨(r.takeWhile identChar).reverse⟩
  | _ => ""

/-- The owners of the `?` markers of a text, in order; `seen` is the text
already read, in reverse. -/
def markerOwnersFrom (seen : List Char) : List Char → List String
  | [] => []
  | c :: cs =>
    if c = '?' then markerOwner seen :: markerOwnersFrom (c :: seen) cs
    else markerOwnersFrom (c :: seen) cs

/-- The columns that the positional `?` markers of a statement belong to, in
the order of the markers: entry `i` is the column bound by parameter `i`. -/
def markerOwners (stmt : String) : List String :=
  markerOwnersFrom [] stmt.data

end dm

/-! ## The buffers the builders strip -/

namespace dm.SqlStatementBuilder

/-- The stream of `CreateTableStatement()` after `Mapping::accept`, before
the seek that replaces the last comma. -/
def createBuffer (m : Mapping) : OStringStream :=
  m.accept FieldDeclarationBuilder.visitField
    (((OStringStream.empty.write "CREATE TABLE IF NOT EXISTS ").write m.getLabel).write
      "(id INTEGER PRIMARY KEY AUTOINCREMENT,")

/-- The streams `columnLabels` and `fieldPlaceholders` of `InsertStatement()`
after `Mapping::accept`, before the two erasures. -/
def insertBuffers (m : Mapping) : OStringStream × OStringStream :=
  m.accept InsertStatementFieldBuilder.visitField (OStringStream.empty, OStringStream.empty)

/-- The stream of `UpdateStatement()` after `Mapping::accept`, before the
seek that removes the last comma. -/
def updateBuffer (m : Mapping) : OStringStream :=
  m.accept UpdateStatementFieldBuilder.visitField
    (((OStringStream.empty.write "UPDATE ").write m.getLabel).write " SET ")

/-- The character at the position `tellp() - 1` of a stream, the one that an
insertion after `seekp(tellp() - 1)` overwrites first. -/
def overwritten (o : OStringStream) : Option Char :=
  if o.pos = 0 then none else o.buf[o.pos - 1]?

end dm.SqlStatementBuilder

/-! ## Wide to narrow strings -/

namespace dm

/-- The text of a column declaration after the name and the space that
follows it: the type tag and, after a space, the constraint if there is
one. -/
def Field.typeAndConstraint (f : Field) : String :=
  match f.constraint with
  | none => f.sqlType.text
  | some c => f.sqlType.text ++ " " ++ c

/-- A mapping whose label and field names are unquoted SQL identifiers. -/
def Mapping.identifiers (m : Mapping) : Bool :=
  isIdentifier m.getLabel && m.fields.all (fun f => isIdentifier f.name)

/-- A mapping whose field names are not empty. -/
def Mapping.named (m : Mapping) : Bool :=
  m.fields.all (fun f => !f.name.data.isEmpty)

/-- A byte of a narrow string. -/
abbrev Byte := Fin 256

/-- The byte with the given value. -/
def byte (n : Nat) : Byte := ⟨n % 256, Nat.mod_lt n (by decide)⟩

/-- The C library call `wcstombs(dst, src, n)` in a locale whose multibyte
encoding of a wide character is `encode` (`none` for a character the locale
cannot represent): the bytes stored in `dst`. Whole characters are converted
in order; the conversion stops at a null wide character, at a character that
cannot be represented, and before a character whose encoding does not fit in
the `n` bytes that are left. -/
def wcstombs (encode : Char → Option (List Byte)) : List Char → Nat → List Byte
  | [], _ => []
  | c :: cs, n =>
    if c.toNat = 0 then []
    else
      match encode c with
      | none => []
      | some bs => if bs.length ≤ n then bs ++ wcstombs encode cs (n - bs.length) else []

/-- The function `toMBStr`: a narrow string of `str.size()` zero bytes, over
whose front `wcstombs` stores at most `str.size()` bytes. -/
def toMBStr (encode : Char → Option (List Byte)) (str : List Char) : List Byte :=
  let mbstr := List.replicate str.length (byte 0)
  let stored := wcstombs encode str str.length
  stored ++ mbstr.drop stored.length

/-- The multibyte encoding of a UTF-8 locale. -/
def utf8 (c : Char) : Option (List Byte) :=
  let n := c.toNat
  if n < 0x80 then some [byte n]
  else if n < 0x800 then some [byte (0xC0 + n / 64), byte (0x80 + n % 64)]
  else if n < 0x10000 then
    some [byte (0xE0 + n / 4096), byte (0x80 + n / 64 % 64), byte (0x80 + n % 64)]
  else
    some [byte (0xF0 + n / 262144), byte (0x80 + n / 4096 % 64), byte (0x80 + n / 64 % 64),
      byte (0x80 + n % 64)]

/-! ## The repository -/

/-- Modelled from the spec: the errors of the read operations that return
exactly one entity (`Repository.h` is not part of the available sources). -/
inductive RepositoryError where
  | DoesNotExistError
  | NotOneError
deriving DecidableEq, Repr

/-- Modelled from the spec: an entity is a surrogate key `id` and the
persisted attributes that the mapping visits. -/
structure Entity (α : Type) where
  id : Int
  attrs : α
deriving DecidableEq, Repr

/-- Modelled from the spec: the sentinel of an id that is not set. -/
def unsetId : Int := -1

/-- Modelled from the spec: the table of one entity type in the engine: its
rows in scan order, and the largest id the engine has assigned so far
(`INTEGER PRIMARY KEY AUTOINCREMENT`). -/
structure Table (α : Type) where
  rows : List (Entity α)
  lastId : Int
deriving DecidableEq, Repr

/-- Modelled from the spec: a table as the engine keeps it: the ids of the
rows are pairwise different (primary key) and none exceeds the largest id
assigned so far (autoincrement). -/
def Table.valid {α : Type} (t : Table α) : Prop :=
  (t.rows.map Entity.id).Nodup ∧ ∀ r ∈ t.rows, r.id ≤ t.lastId

/-- A `double`, carried by its IEEE 754 bit pattern: sign, eleven exponent
bits, fifty-two fraction bits. The derived equality is identity of the
pattern; the `==` of the program is `Double.eq`. -/
structure Double where
  bits : Nat
deriving DecidableEq, Repr

/-- Modelled from the spec: a typed value that is bound to a positional
parameter and read from a column: narrow string, wide string, integer or
floating point (the binder is not part of the available sources). -/
inductive Value where
  | text (s : String)
  | wideText (s : String)
  | integer (n : Int)
  | real (d : Double)
deriving DecidableEq, Repr

/-- Modelled from the spec: one visited field as the parameter binder and the
row materializer use it: `read` is the value that is bound, `write` stores a
decoded column value in the attribute and leaves the entity as it is when the
value has another type. -/
structure FieldAccess (α : Type) where
  read : α → Value
  write : Value → α → α

/-- Modelled from the spec: parameter binding: one typed value per visited
field, in visitation order. -/
def bindFields {α : Type} (access : List (FieldAccess α)) (a : α) : List Value :=
  access.map (fun f => f.read a)

/-- Modelled from the spec: row materialization: a new entity value on which
visitation is applied again in the same field order, decoding the column
values positionally. -/
def materialize {α : Type} (access : List (FieldAccess α)) (fresh : α)
    (columns : List Value) : α :=
  (access.zip columns).foldl (fun a p => p.1.write p.2 a) fresh

namespace Repository

/-- Modelled from the spec: the contract of the read operations that return
exactly one entity, `GetByQuery(statement, allowMany)`, on the rows that the
statement yields: no row is `DoesNotExistError`; more than one row is
`NotOneError` unless many are allowed, in which case the first row
encountered is returned (`Repository.h` is not part of the available
sources). -/
def GetByQuery {α : Type} (rows : List (Entity α)) (allowMany : Bool) :
    Except RepositoryError (Entity α) :=
  match rows with
  | [] => .error .DoesNotExistError
  | first :: more =>
    if more.isEmpty then .ok first
    else if allowMany then .ok first
    else .error .NotOneError

/-- Modelled from the spec: the rows that `SELECT * FROM <label> WHERE id=?`
yields for an id. -/
def selectById {α : Type} (t : Table α) (id : Int) : List (Entity α) :=
  t.rows.filter (fun r => r.id == id)

/-- Modelled from the spec: `Get(id)` returns exactly one entity and fails
with `DoesNotExistError` if no row matches. -/
def Get {α : Type} (t : Table α) (id : Int) : Except RepositoryError (Entity α) :=
  GetByQuery (selectById t id) false

/-- Modelled from the spec: `Save(entity)` for a mapping that visits the
fields `access`: the attributes are bound in visitation order and the row
holds them as row materialization returns them. If the id is unset, a row is
inserted and the id the engine generates is assigned back onto the entity;
else the row matching the id is updated. The result is the table and the
entity after the call. -/
def Save {α : Type} (access : List (FieldAccess α)) (fresh : α) (t : Table α)
    (e : Entity α) : Table α × Entity α :=
  let stored : α := materialize access fresh (bindFields access e.attrs)
  if e.id = unsetId then
    ({ rows := t.rows ++ [⟨t.lastId + 1, stored⟩], lastId := t.lastId + 1 },
      { e with id := t.lastId + 1 })
  else
    ({ t with rows := t.rows.map (fun r => if r.id = e.id then ⟨e.id, stored⟩ else r) }, e)

/-- Modelled from the spec: `Delete(id)` deletes the row with the id; it is
no error if there is none. -/
def DeleteId {α : Type} (t : Table α) (id : Int) : Table α :=
  { t with rows := t.rows.filter (fun r => r.id != id) }

/-- Modelled from the spec: `Delete(entity)` deletes by the current id of the
entity, then resets the id of the entity to unset. The result is the table
and the entity after the call. -/
def Delete {α : Type} (t : Table α) (e : Entity α) : Table α × Entity α :=
  (DeleteId t e.id, { e with id := unsetId })

/-- Modelled from the spec: the states of the table of a repository: the empty
table, and every table that `Save` or a deletion makes of a state. -/
inductive Reachable {α : Type} (access : List (FieldAccess α)) (fresh : α) : Table α → Prop where
  | empty : Reachable access fresh ⟨[], 0⟩
  | save (t : Table α) (e : Entity α) :
      Reachable access fresh t → Reachable access fresh (Save access fresh t e).1
  | delete (t : Table α) (id : Int) :
      Reachable access fresh t → Reachable access fresh (DeleteId t id)

end Repository

/-! ## The entity of the test suite -/

/-- The persisted attributes of `Person` of `test/src/main.cpp`: `name`,
`wname`, `age` and `height`; a `Person` is an `Entity PersonAttributes`. -/
structure PersonAttributes where
  name : String
  wname : String
  age : Int
  height : Double
deriving DecidableEq, Repr

/-- The entity `Person(-1, "Ervin", L"ŽŸ®", 8446744073709551615, 1.80)` that
`testObjectSaving` saves first; `1.80` is the double `0x3FFCCCCCCCCCCCCD`. -/
def ervin : Entity PersonAttributes :=
  ⟨-1, ⟨"Ervin", "ŽŸ®", 8446744073709551615, ⟨0x3FFCCCCCCCCCCCCD⟩⟩⟩

/-- The entity `Person(2, "Marvin", L"¥¥¥¥", 24, 1.65)` that
`testObjectDeletion` deletes; `1.65` is the double `0x3FFA666666666666`. -/
def marvin : Entity PersonAttributes :=
  ⟨2, ⟨"Marvin", "¥¥¥¥", 24, ⟨0x3FFA666666666666⟩⟩⟩

/-- The entity `Person(3, "Steve", L"Ž¥¥", 32, 2.10)` of the test suite;
`2.10` is the double `0x4000CCCCCCCCCCCD`. -/
def steve : Entity PersonAttributes :=
  ⟨3, ⟨"Steve", "Ž¥¥", 32, ⟨0x4000CCCCCCCCCCCD⟩⟩⟩

/-- The table of the test suite when `testObjectDeletion` deletes Marvin:
Ervin (id 1) has been deleted, Marvin has id 2 and age 32, Steve has id 3. -/
def tableBeforeMarvinIsDeleted : Table PersonAttributes :=
  ⟨[⟨2, ⟨"Marvin", "¥¥¥¥", 32, ⟨0x3FFA666666666666⟩⟩⟩, steve], 3⟩

end dm

/-! ## Streams that are written front to back -/

namespace dm

theorem OStringStream.empty_eq_atEnd : OStringStream.empty = OStringStream.atEnd [] := rfl

theorem OStringStream.write_atEnd (l : List Char) (s : String) :
    (OStringStream.atEnd l).write s = OStringStream.atEnd (l ++ s.data) := by
  simp [OStringStream.atEnd, OStringStream.write]

theorem OStringStream.str_atEnd (l : List Char) : (OStringStream.atEnd l).str = ⟨l⟩ := rfl

/-- Seeking one position back from the end and inserting a non-empty text
replaces the last character of the buffer by that text. -/
theorem OStringStream.overwrite_last (l : List Char) (s : String)
    (hl : l ≠ []) (hs : s.data ≠ []) :
    ((OStringStream.atEnd l).seekp ((OStringStream.atEnd l).tellp - 1)).write s
      = OStringStream.atEnd (l.dropLast ++ s.data) := by
  have hlen : 1 ≤ l.length := List.length_pos.mpr hl
  have hslen : 1 ≤ s.data.length := List.length_pos.mpr hs
  have hseek : (OStringStream.atEnd l).seekp ((OStringStream.atEnd l).tellp - 1)
      = ⟨l, l.length - 1, false⟩ := by
    simp only [OStringStream.atEnd, OStringStream.tellp, OStringStream.seekp]
    have h1 : (0 : Int) ≤ (l.length : Int) - 1 ∧ (l.length : Int) - 1 ≤ (l.length : Int) := by
      constructor <;> omega
    have h2 : ((l.length : Int) - 1).toNat = l.length - 1 := by omega
    simp [h1, h2]
  rw [hseek]
  have hdrop : List.drop (l.length - 1 + s.data.length) l = [] :=
    List.drop_eq_nil_of_le (by omega)
  have hpos : l.length - 1 + s.data.length = (List.take (l.length - 1) l ++ s.data).length := by
    rw [List.length_append, List.length_take]
    omega
  show (⟨List.take (l.length - 1) l ++ s.data ++ List.drop (l.length - 1 + s.data.length) l,
      l.length - 1 + s.data.length, false⟩ : OStringStream) = _
  rw [hdrop, List.append_nil, List.dropLast_eq_take, OStringStream.atEnd, ← hpos]

theorem commaTerminated_nil : commaTerminated [] = [] := rfl

theorem commaTerminated_cons (x : String) (xs : List String) :
    commaTerminated (x :: xs) = x.data ++ ',' :: commaTerminated xs := by
  simp [commaTerminated]

theorem intercalate_go_data (sep acc : String) (xs : List String) :
    (String.intercalate.go acc sep xs).data
      = acc.data ++ (xs.map (fun x => sep.data ++ x.data)).flatten := by
  induction xs generalizing acc with
  | nil => simp [String.intercalate.go]
  | cons x xs ih => simp [String.intercalate.go, ih, List.append_assoc]

theorem intercalate_cons_data (sep x : String) (xs : List String) :
    (String.intercalate sep (x :: xs)).data
      = x.data ++ (xs.map (fun y => sep.data ++ y.data)).flatten := by
  simp [String.intercalate, intercalate_go_data]

theorem commaTerminated_eq_intercalate (xs : List String) (h : xs ≠ []) :
    commaTerminated xs = (String.intercalate "," xs).data ++ [','] := by
  cases xs with
  | nil => exact absurd rfl h
  | cons x xs =>
    rw [intercalate_cons_data, commaTerminated_cons]
    have key : ∀ ys : List String,
        ',' :: commaTerminated ys
          = (ys.map (fun y => (",": String).data ++ y.data)).flatten ++ [','] := by
      intro ys
      induction ys with
      | nil => rfl
      | cons y ys ih =>
        rw [commaTerminated_cons]
        simp only [List.map_cons, List.flatten_cons, List.append_assoc]
        rw [← ih]
        rfl
    rw [key xs, List.append_assoc]

theorem commaTerminated_dropLast (xs : List String) (h : xs ≠ []) :
    (commaTerminated xs).dropLast = (String.intercalate "," xs).data := by
  rw [commaTerminated_eq_intercalate xs h, List.dropLast_concat]

theorem isEmpty_data_iff (s : String) : s.data.isEmpty = true ↔ s = "" := by
  constructor
  · intro h
    apply String.ext
    simpa [List.isEmpty_iff] using h
  · intro h
    subst h
    rfl

/-! ### What the visitors leave in their streams -/

theorem FieldDeclarationBuilder.visitDeclaration_atEnd (f : Field) (l : List Char) :
    FieldDeclarationBuilder.visitField f (OStringStream.atEnd l)
      = OStringStream.atEnd (l ++ (f.declaration.data ++ [','])) := by
  simp [FieldDeclarationBuilder.visitField, OStringStream.write_atEnd]

theorem UpdateStatementFieldBuilder.visitUpdate_atEnd (f : Field) (l : List Char) :
    UpdateStatementFieldBuilder.visitField f (OStringStream.atEnd l)
      = OStringStream.atEnd (l ++ ((f.name ++ "=?").data ++ [','])) := by
  simp [UpdateStatementFieldBuilder.visitField, OStringStream.write_atEnd]

theorem InsertStatementFieldBuilder.visitInsert_atEnd (f : Field) (l₁ l₂ : List Char) :
    InsertStatementFieldBuilder.visitField f (OStringStream.atEnd l₁, OStringStream.atEnd l₂)
      = (OStringStream.atEnd (l₁ ++ (f.name.data ++ [','])),
         OStringStream.atEnd (l₂ ++ (("?" : String).data ++ [',']))) := by
  simp [InsertStatementFieldBuilder.visitField, OStringStream.write_atEnd]

theorem accept_declaration (fs : List Field) (l : List Char) :
    fs.foldl (fun st f => FieldDeclarationBuilder.visitField f st) (OStringStream.atEnd l)
      = OStringStream.atEnd (l ++ commaTerminated (fs.map Field.declaration)) := by
  induction fs generalizing l with
  | nil => simp [commaTerminated_nil]
  | cons f fs ih =>
    simp only [List.foldl_cons, List.map_cons, commaTerminated_cons]
    rw [FieldDeclarationBuilder.visitDeclaration_atEnd, ih]
    simp [List.append_assoc]

theorem accept_update (fs : List Field) (l : List Char) :
    fs.foldl (fun st f => UpdateStatementFieldBuilder.visitField f st) (OStringStream.atEnd l)
      = OStringStream.atEnd (l ++ commaTerminated (fs.map (fun f => f.name ++ "=?"))) := by
  induction fs generalizing l with
  | nil => simp [commaTerminated_nil]
  | cons f fs ih =>
    simp only [List.foldl_cons, List.map_cons, commaTerminated_cons]
    rw [UpdateStatementFieldBuilder.visitUpdate_atEnd, ih]
    simp [List.append_assoc]

theorem accept_insert (fs : List Field) (l₁ l₂ : List Char) :
    fs.foldl (fun st f => InsertStatementFieldBuilder.visitField f st)
        (OStringStream.atEnd l₁, OStringStream.atEnd l₂)
      = (OStringStream.atEnd (l₁ ++ commaTerminated (fs.map Field.name)),
         OStringStream.atEnd (l₂ ++ commaTerminated (fs.map (fun _ => "?")))) := by
  induction fs generalizing l₁ l₂ with
  | nil => simp [commaTerminated_nil]
  | cons f fs ih =>
    simp only [List.foldl_cons, List.map_cons, commaTerminated_cons]
    rw [InsertStatementFieldBuilder.visitInsert_atEnd, ih]
    simp [List.append_assoc]

end dm

/-! ## The buffers of the three visiting builders -/

namespace dm.SqlStatementBuilder

theorem CreateTableStatement_data (m : Mapping) :
    (CreateTableStatement m).data
      = (("CREATE TABLE IF NOT EXISTS " ++ m.getLabel
            ++ "(id INTEGER PRIMARY KEY AUTOINCREMENT,").data
          ++ commaTerminated (m.fields.map Field.declaration)).dropLast
        ++ (")" ++ customSuffix m.customCreateStatements).data := by
  unfold CreateTableStatement Mapping.accept
  simp only [OStringStream.empty_eq_atEnd, OStringStream.write_atEnd, accept_declaration]
  rw [OStringStream.overwrite_last _ _ (by simp) (by decide)]
  by_cases hc : m.customCreateStatements = ""
  · have : m.customCreateStatements.data.isEmpty = true := (isEmpty_data_iff _).mpr hc
    simp [this, customSuffix, hc, OStringStream.str_atEnd]
  · have : m.customCreateStatements.data.isEmpty = false := by
      cases h : m.customCreateStatements.data.isEmpty
      · rfl
      · exact absurd ((isEmpty_data_iff _).mp h) hc
    simp [this, customSuffix, hc, OStringStream.write_atEnd, OStringStream.str_atEnd]

theorem UpdateStatement_data (m : Mapping) :
    (UpdateStatement m).data
      = (("UPDATE " ++ m.getLabel ++ " SET ").data
          ++ commaTerminated (m.fields.map (fun f => f.name ++ "=?"))).dropLast
        ++ (" WHERE id=?" : String).data := by
  unfold UpdateStatement Mapping.accept
  simp only [OStringStream.empty_eq_atEnd, OStringStream.write_atEnd, accept_update]
  rw [OStringStream.overwrite_last _ _ (by simp) (by decide)]
  simp [OStringStream.str_atEnd]

theorem eraseLast_commaTerminated (xs : List String) (h : xs ≠ []) :
    eraseLast ⟨commaTerminated xs⟩ = some (String.intercalate "," xs) := by
  unfold eraseLast
  have hne : (commaTerminated xs).isEmpty = false := by
    rw [commaTerminated_eq_intercalate xs h]
    simp
  simp only [hne]
  rw [commaTerminated_dropLast xs h]
  rfl

theorem eraseLast_commaTerminated_nil : eraseLast ⟨commaTerminated []⟩ = none := rfl

end dm.SqlStatementBuilder

/-! ## Splitting texts at a separator -/

namespace dm

theorem splitChar_of_not_mem (c : Char) (a : List Char) (h : c ∉ a) : splitChar c a = [a] := by
  induction a with
  | nil => rfl
  | cons x xs ih =>
    have hx : x ≠ c := fun e => h (e ▸ List.mem_cons_self _ _)
    have hxs : c ∉ xs := fun e => h (List.mem_cons_of_mem _ e)
    simp [splitChar, hx, ih hxs]

theorem splitChar_append (c : Char) (a r : List Char) (h : c ∉ a) :
    splitChar c (a ++ c :: r) = a :: splitChar c r := by
  induction a with
  | nil => simp [splitChar]
  | cons x xs ih =>
    have hx : x ≠ c := fun e => h (e ▸ List.mem_cons_self _ _)
    have hxs : c ∉ xs := fun e => h (List.mem_cons_of_mem _ e)
    simp [splitChar, hx, ih hxs]

theorem splitChar_separated (c : Char) (ys : List (List Char)) (a : List Char)
    (ha : c ∉ a) (hys : ∀ y ∈ ys, c ∉ y) :
    splitChar c (a ++ (ys.map (fun y => c :: y)).flatten) = a :: ys := by
  induction ys generalizing a with
  | nil => simpa using splitChar_of_not_mem c a ha
  | cons y ys ih =>
    have hy : c ∉ y := hys y (List.mem_cons_self _ _)
    have hrest : ∀ z ∈ ys, c ∉ z := fun z hz => hys z (List.mem_cons_of_mem _ hz)
    simp only [List.map_cons, List.flatten_cons, List.cons_append]
    rw [splitChar_append c a _ ha]
    have := ih y hy hrest
    rw [this]

theorem untilChar_append (c : Char) (a r : List Char) (h : c ∉ a) :
    untilChar c (a ++ c :: r) = a := by
  induction a with
  | nil => simp [untilChar]
  | cons x xs ih =>
    have hx : x ≠ c := fun e => h (e ▸ List.mem_cons_self _ _)
    have hxs : c ∉ xs := fun e => h (List.mem_cons_of_mem _ e)
    have := ih hxs
    simp only [untilChar] at this ⊢
    simp [List.takeWhile_cons, hx, this]

theorem untilChar_of_not_mem (c : Char) (a : List Char) (h : c ∉ a) : untilChar c a = a := by
  induction a with
  | nil => rfl
  | cons x xs ih =>
    have hx : x ≠ c := fun e => h (e ▸ List.mem_cons_self _ _)
    have hxs : c ∉ xs := fun e => h (List.mem_cons_of_mem _ e)
    have := ih hxs
    simp only [untilChar] at this ⊢
    simp [List.takeWhile_cons, hx, this]

theorem afterChar_append (c : Char) (a r : List Char) (h : c ∉ a) :
    afterChar c (a ++ c :: r) = r := by
  induction a with
  | nil => simp [afterChar]
  | cons x xs ih =>
    have hx : x ≠ c := fun e => h (e ▸ List.mem_cons_self _ _)
    have hxs : c ∉ xs := fun e => h (List.mem_cons_of_mem _ e)
    have := ih hxs
    simp only [afterChar] at this ⊢
    simp [List.dropWhile_cons, hx, this]

/-- Dropping the last comma of a comma-terminated list that follows a comma:
every item keeps the comma in front of it. -/
theorem dropLast_comma_commaTerminated (xs : List String) (a : List Char) :
    (a ++ ',' :: commaTerminated xs).dropLast
      = a ++ (xs.map (fun x => ',' :: x.data)).flatten := by
  induction xs generalizing a with
  | nil => simp [commaTerminated_nil]
  | cons x xs ih =>
    have h := ih (a ++ ',' :: x.data)
    rw [commaTerminated_cons]
    simp only [List.map_cons, List.flatten_cons]
    simpa [List.append_assoc] using h

theorem dropLast_append_commaTerminated (x : String) (xs : List String) (a : List Char) :
    (a ++ commaTerminated (x :: xs)).dropLast
      = a ++ x.data ++ (xs.map (fun y => ',' :: y.data)).flatten := by
  rw [commaTerminated_cons]
  have h := dropLast_comma_commaTerminated xs (a ++ x.data)
  simpa [List.append_assoc] using h

/-! ### Characters of plain mappings -/

theorem not_mem_of_isIdentifier (s : String) (h : isIdentifier s = true) (c : Char)
    (hc : identChar c = false) : c ∉ s.data := by
  intro hmem
  have := (List.all_eq_true.mp h) c hmem
  rw [hc] at this
  exact Bool.false_ne_true this

theorem Mapping.plain_label (m : Mapping) (h : m.plain = true) : isIdentifier m.getLabel = true := by
  simp only [Mapping.plain, Bool.and_eq_true] at h
  exact h.1

theorem Mapping.plain_name (m : Mapping) (h : m.plain = true) (f : Field) (hf : f ∈ m.fields) :
    isIdentifier f.name = true := by
  simp only [Mapping.plain, Bool.and_eq_true, List.all_eq_true] at h
  exact (h.2 f hf).1

theorem Mapping.plain_constraint (m : Mapping) (h : m.plain = true) (f : Field)
    (hf : f ∈ m.fields) : plainConstraint f.constraint = true := by
  simp only [Mapping.plain, Bool.and_eq_true, List.all_eq_true] at h
  exact (h.2 f hf).2

theorem Mapping.identifiers_label (m : Mapping) (h : m.identifiers = true) :
    isIdentifier m.getLabel = true := by
  simp only [Mapping.identifiers, Bool.and_eq_true] at h
  exact h.1

theorem Mapping.identifiers_name (m : Mapping) (h : m.identifiers = true) (f : Field)
    (hf : f ∈ m.fields) : isIdentifier f.name = true := by
  simp only [Mapping.identifiers, Bool.and_eq_true, List.all_eq_true] at h
  exact h.2 f hf

theorem Mapping.identifiers_of_plain (m : Mapping) (h : m.plain = true) :
    m.identifiers = true := by
  simp only [Mapping.identifiers, Bool.and_eq_true, List.all_eq_true]
  exact ⟨m.plain_label h, fun f hf => m.plain_name h f hf⟩

theorem Field.declaration_eq (f : Field) :
    f.declaration = f.name ++ " " ++ f.typeAndConstraint := by
  unfold Field.declaration Field.typeAndConstraint
  cases f.constraint with
  | none => rfl
  | some c =>
    apply String.ext
    simp [String.data_append, List.append_assoc]

theorem SqlType.text_not_mem (t : SqlType) : ',' ∉ t.text.data ∧ ')' ∉ t.text.data := by
  cases t <;> decide

theorem Field.declaration_data (f : Field) :
    ∃ rest, f.declaration.data = f.name.data ++ ' ' :: rest := by
  unfold Field.declaration
  cases f.constraint with
  | none => exact ⟨f.sqlType.text.data, by simp [String.data_append]⟩
  | some c => exact ⟨f.sqlType.text.data ++ ' ' :: c.data, by simp [String.data_append]⟩

theorem Field.declaration_not_mem (f : Field) (hn : isIdentifier f.name = true)
    (hc : plainConstraint f.constraint = true) :
    ',' ∉ f.declaration.data ∧ ')' ∉ f.declaration.data := by
  have h1 := not_mem_of_isIdentifier f.name hn ',' (by decide)
  have h2 := not_mem_of_isIdentifier f.name hn ')' (by decide)
  have ht := SqlType.text_not_mem f.sqlType
  unfold Field.declaration
  cases hcon : f.constraint with
  | none => simp [String.data_append, h1, h2, ht.1, ht.2]
  | some c =>
    rw [hcon] at hc
    simp only [plainConstraint, List.all_eq_true, Bool.and_eq_true, bne_iff_ne, ne_eq] at hc
    have hc1 : ',' ∉ c.data := fun hm => (hc _ hm).1 rfl
    have hc2 : ')' ∉ c.data := fun hm => (hc _ hm).2 rfl
    simp [String.data_append, h1, h2, ht.1, ht.2, hc1, hc2]

end dm

/-! ## The texts of the statements, piece by piece -/

namespace dm

theorem splitChar_intercalate (xs : List String) (h : xs ≠ [])
    (hx : ∀ x ∈ xs, ',' ∉ x.data) :
    splitChar ',' (String.intercalate "," xs).data = xs.map String.data := by
  cases xs with
  | nil => exact absurd rfl h
  | cons x xs =>
    rw [intercalate_cons_data]
    have hmap : xs.map (fun y => (",": String).data ++ y.data)
        = (xs.map String.data).map (fun y => ',' :: y) := by
      rw [List.map_map]
      rfl
    rw [hmap, splitChar_separated ',' _ _ (hx x (List.mem_cons_self _ _))]
    · rfl
    · intro y hy
      obtain ⟨z, hz, rfl⟩ := List.mem_map.mp hy
      exact hx z (List.mem_cons_of_mem _ hz)

theorem not_mem_intercalate (c : Char) (hc : c ≠ ',') (xs : List String)
    (hx : ∀ x ∈ xs, c ∉ x.data) : c ∉ (String.intercalate "," xs).data := by
  cases xs with
  | nil => simp [String.intercalate]
  | cons x xs =>
    rw [intercalate_cons_data]
    intro hmem
    rcases List.mem_append.mp hmem with h1 | h2
    · exact hx x (List.mem_cons_self _ _) h1
    · obtain ⟨l, hl, hcl⟩ := List.mem_flatten.mp h2
      obtain ⟨y, hy, rfl⟩ := List.mem_map.mp hl
      rcases List.mem_append.mp hcl with h3 | h4
      · have : c = ',' := by simpa using h3
        exact hc this
      · exact hx y (List.mem_cons_of_mem _ hy) h4

theorem not_mem_separated (c : Char) (hc : c ≠ ',') (xs : List String)
    (hx : ∀ x ∈ xs, c ∉ x.data) :
    c ∉ (xs.map (fun x => ',' :: x.data)).flatten := by
  intro hmem
  obtain ⟨l, hl, hcl⟩ := List.mem_flatten.mp hmem
  obtain ⟨y, hy, rfl⟩ := List.mem_map.mp hl
  rcases List.mem_cons.mp hcl with h3 | h4
  · exact hc h3
  · exact hx y hy h4

namespace SqlStatementBuilder

/-- The text of `CreateTableStatement()` for any mapping: every declaration
keeps the comma in front of it, and the closing parenthesis stands where the
last comma of the buffer stood. -/
theorem CreateTableStatement_pieces (m : Mapping) :
    (CreateTableStatement m).data
      = ("CREATE TABLE IF NOT EXISTS " ++ m.getLabel).data
        ++ '(' :: (("id INTEGER PRIMARY KEY AUTOINCREMENT" : String).data
            ++ ((m.fields.map Field.declaration).map (fun d => ',' :: d.data)).flatten)
        ++ ')' :: (customSuffix m.customCreateStatements).data := by
  rw [CreateTableStatement_data]
  have hP : ("CREATE TABLE IF NOT EXISTS " ++ m.getLabel
        ++ "(id INTEGER PRIMARY KEY AUTOINCREMENT,").data
      = (("CREATE TABLE IF NOT EXISTS " ++ m.getLabel).data
          ++ '(' :: ("id INTEGER PRIMARY KEY AUTOINCREMENT" : String).data) ++ [','] := by
    simp [String.data_append, List.append_assoc]
  rw [hP, List.append_assoc, List.singleton_append, dropLast_comma_commaTerminated]
  simp [String.data_append, List.append_assoc]

theorem UpdateStatement_pieces_nil (m : Mapping) (h : m.fields = []) :
    (UpdateStatement m).data
      = ("UPDATE " ++ m.getLabel ++ " SET").data ++ (" WHERE id=?" : String).data := by
  rw [UpdateStatement_data, h]
  have hP : ("UPDATE " ++ m.getLabel ++ " SET ").data
      = ("UPDATE " ++ m.getLabel ++ " SET").data ++ [' '] := by
    simp [String.data_append, List.append_assoc]
  rw [hP, List.map_nil, commaTerminated_nil, List.append_nil, List.dropLast_concat]

theorem UpdateStatement_pieces_cons (m : Mapping) (f : Field) (fs : List Field)
    (h : m.fields = f :: fs) :
    (UpdateStatement m).data
      = ("UPDATE " ++ m.getLabel ++ " SET ").data ++ (f.name.data ++ ['=', '?'])
        ++ ((fs.map (fun g => g.name ++ "=?")).map (fun a => ',' :: a.data)).flatten
        ++ (" WHERE id=?" : String).data := by
  rw [UpdateStatement_data, h, List.map_cons, dropLast_append_commaTerminated]
  simp [String.data_append, List.append_assoc]

end SqlStatementBuilder

/-! ### Owners of the markers -/

theorem markerOwnersFrom_skip (a r seen : List Char) (h : '?' ∉ a) :
    markerOwnersFrom seen (a ++ r) = markerOwnersFrom (a.reverse ++ seen) r := by
  induction a generalizing seen with
  | nil => rfl
  | cons x xs ih =>
    have hx : x ≠ '?' := fun e => h (e ▸ List.mem_cons_self _ _)
    have hxs : '?' ∉ xs := fun e => h (List.mem_cons_of_mem _ e)
    have hstep : markerOwnersFrom seen (x :: xs ++ r) = markerOwnersFrom (x :: seen) (xs ++ r) := by
      simp [markerOwnersFrom, hx]
    rw [hstep, ih _ hxs]
    simp

theorem takeWhile_identChar_append (a b : List Char) (ha : a.all identChar = true)
    (hb : b.takeWhile identChar = []) : (a ++ b).takeWhile identChar = a := by
  induction a with
  | nil => simpa using hb
  | cons x xs ih =>
    simp only [List.all_cons, Bool.and_eq_true] at ha
    simp [List.takeWhile_cons, ha.1, ih ha.2]

theorem markerOwnersFrom_assignment (n : String) (r seen : List Char)
    (hn : isIdentifier n = true) (hseen : seen.takeWhile identChar = []) :
    markerOwnersFrom seen (n.data ++ '=' :: '?' :: r)
      = n :: markerOwnersFrom ('?' :: '=' :: (n.data.reverse ++ seen)) r := by
  have hq : '?' ∉ n.data := not_mem_of_isIdentifier n hn '?' (by decide)
  rw [markerOwnersFrom_skip _ _ _ hq]
  have hall : n.data.reverse.all identChar = true := by
    rw [List.all_reverse]
    exact hn
  simp only [markerOwnersFrom, if_true, markerOwner, (by decide : ('=' : Char) ≠ '?'), if_false,
    takeWhile_identChar_append _ _ hall hseen, List.reverse_reverse]

end dm

/-! ## Reading the statements of a plain mapping back -/

namespace dm

set_option maxRecDepth 100000

theorem markerOwnersFrom_where (seen : List Char) :
    markerOwnersFrom seen (" WHERE id=?" : String).data = ["id"] := by
  rfl

theorem markerOwnersFrom_assignments (ns : List String) (seen : List Char)
    (hns : ∀ n ∈ ns, isIdentifier n = true) :
    markerOwnersFrom seen
        (((ns.map (fun n => n ++ "=?")).map (fun a => ',' :: a.data)).flatten
          ++ (" WHERE id=?" : String).data)
      = ns ++ ["id"] := by
  induction ns generalizing seen with
  | nil => exact markerOwnersFrom_where seen
  | cons n ns ih =>
    have hn := hns n (List.mem_cons_self _ _)
    have hrest : ∀ k ∈ ns, isIdentifier k = true := fun k hk => hns k (List.mem_cons_of_mem _ hk)
    have hshape : ((((n :: ns).map (fun n => n ++ "=?")).map (fun a => ',' :: a.data)).flatten
          ++ (" WHERE id=?" : String).data)
        = ',' :: (n.data ++ '=' :: '?' ::
            (((ns.map (fun n => n ++ "=?")).map (fun a => ',' :: a.data)).flatten
              ++ (" WHERE id=?" : String).data)) := by
      simp [String.data_append, List.append_assoc]
    have hcomma : ∀ rest, markerOwnersFrom seen (',' :: rest)
        = markerOwnersFrom (',' :: seen) rest := by
      intro rest
      simp [markerOwnersFrom]
    rw [hshape, hcomma, markerOwnersFrom_assignment n _ _ hn (by simp [List.takeWhile_cons, identChar]),
      ih _ hrest]
    rfl

namespace SqlStatementBuilder

/-- The markers of `UpdateStatement()` belong to the visited fields, in order,
and the last one to `id`. -/
theorem markerOwners_UpdateStatement (m : Mapping) (hi : m.identifiers = true) :
    markerOwners (UpdateStatement m) = m.fields.map Field.name ++ ["id"] := by
  have hL := not_mem_of_isIdentifier _ (m.identifiers_label hi) '?' (by decide)
  unfold markerOwners
  cases hf : m.fields with
  | nil =>
    rw [UpdateStatement_pieces_nil m hf, markerOwnersFrom_skip _ _ _ (by
      simp [String.data_append, hL])]
    exact markerOwnersFrom_where _
  | cons f fs =>
    have hnames : ∀ n ∈ fs.map Field.name, isIdentifier n = true := by
      intro n hn
      obtain ⟨g, hg, rfl⟩ := List.mem_map.mp hn
      exact m.identifiers_name hi g (hf ▸ List.mem_cons_of_mem _ hg)
    have hname : isIdentifier f.name = true := m.identifiers_name hi f (hf ▸ List.mem_cons_self _ _)
    have hmap : fs.map (fun g => g.name ++ "=?")
        = (fs.map Field.name).map (fun n => n ++ "=?") := by
      rw [List.map_map]
      rfl
    rw [UpdateStatement_pieces_cons m f fs hf, hmap, List.append_assoc, List.append_assoc,
      markerOwnersFrom_skip _ _ _ (by simp [String.data_append, hL])]
    have hshape : ∀ rest : List Char,
        f.name.data ++ ['=', '?'] ++ rest = f.name.data ++ '=' :: '?' :: rest := by
      intro rest
      simp
    rw [hshape, markerOwnersFrom_assignment f.name _ _ hname (by
      simp [String.data_append, List.takeWhile_cons, identChar]),
      markerOwnersFrom_assignments _ _ hnames]
    rfl

/-- The column declarations read back from `CreateTableStatement()` are the
declarations of the visited fields, in order. -/
theorem createDeclarations_CreateTableStatement (m : Mapping) (hp : m.plain = true) :
    createDeclarations (CreateTableStatement m) = m.fields.map Field.declaration := by
  have hL := not_mem_of_isIdentifier _ (m.plain_label hp) '(' (by decide)
  have hdecl : ∀ d ∈ m.fields.map Field.declaration, ',' ∉ d.data ∧ ')' ∉ d.data := by
    intro d hd
    obtain ⟨f, hf, rfl⟩ := List.mem_map.mp hd
    exact f.declaration_not_mem (m.plain_name hp f hf) (m.plain_constraint hp f hf)
  unfold createDeclarations
  rw [CreateTableStatement_pieces, List.append_assoc, List.cons_append,
    afterChar_append '(' _ _ (by simp [String.data_append, hL]),
    untilChar_append ')' _ _ (by
      intro hmem
      rcases List.mem_append.mp hmem with h1 | h2
      · exact absurd h1 (by decide)
      · exact not_mem_separated ')' (by decide) _ (fun d hd => (hdecl d hd).2) h2)]
  have hmap : (m.fields.map Field.declaration).map (fun d => ',' :: d.data)
      = ((m.fields.map Field.declaration).map String.data).map (fun y => ',' :: y) := by
    simp [List.map_map, Function.comp_def]
  rw [hmap, splitChar_separated ',' _ _ (by decide) (by
    intro y hy
    obtain ⟨d, hd, rfl⟩ := List.mem_map.mp hy
    exact (hdecl d hd).1)]
  simp

theorem createColumnNames_CreateTableStatement (m : Mapping) (hp : m.plain = true) :
    createColumnNames (CreateTableStatement m) = m.fields.map Field.name := by
  unfold createColumnNames
  rw [createDeclarations_CreateTableStatement m hp, List.map_map]
  apply List.map_congr_left
  intro f hf
  obtain ⟨rest, hrest⟩ := f.declaration_data
  have hsp := not_mem_of_isIdentifier _ (m.plain_name hp f hf) ' ' (by decide)
  simp only [Function.comp, hrest, untilChar_append ' ' _ _ hsp]

end SqlStatementBuilder

end dm

namespace dm.SqlStatementBuilder

theorem map_mk_data (xs : List String) : (xs.map String.data).map String.mk = xs := by
  induction xs with
  | nil => rfl
  | cons x xs ih =>
    rw [List.map_cons, List.map_cons, ih]

/-- The text of `InsertStatement()` for a mapping with at least one field:
the two lists lose their last comma and are closed by a parenthesis. -/
theorem InsertStatement_pieces (m : Mapping) (h : m.fields ≠ []) :
    InsertStatement m
      = some ⟨("INSERT INTO " ++ m.getLabel ++ " ").data
          ++ '(' :: ((String.intercalate "," (m.fields.map Field.name)).data
          ++ ')' :: ((" VALUES " : String).data
          ++ '(' :: ((String.intercalate "," (List.replicate m.fields.length "?")).data
          ++ [')'])))⟩ := by
  have hn : m.fields.map Field.name ≠ [] := by simpa using h
  have hrep : m.fields.map (fun _ => "?") = List.replicate m.fields.length "?" := by
    simp
  have hq : List.replicate m.fields.length "?" ≠ [] := by
    rw [← hrep]
    simpa using h
  unfold InsertStatement Mapping.accept
  simp only [OStringStream.empty_eq_atEnd, OStringStream.write_atEnd, accept_insert,
    OStringStream.str_atEnd, List.nil_append, hrep,
    eraseLast_commaTerminated _ hn, eraseLast_commaTerminated _ hq]
  congr 1
  apply String.ext
  simp [String.data_append, List.append_assoc]

theorem insertColumnNames_pieces (label : String) (ns ps : List String)
    (hL : isIdentifier label = true) (hne : ns ≠ [])
    (hns : ∀ n ∈ ns, isIdentifier n = true) :
    insertColumnNames ⟨("INSERT INTO " ++ label ++ " ").data
          ++ '(' :: ((String.intercalate "," ns).data
          ++ ')' :: ((" VALUES " : String).data
          ++ '(' :: ((String.intercalate "," ps).data ++ [')'])))⟩
      = ns := by
  have hL1 := not_mem_of_isIdentifier _ hL '(' (by decide)
  unfold insertColumnNames
  rw [afterChar_append '(' _ _ (by simp [String.data_append, hL1]),
    untilChar_append ')' _ _ (not_mem_intercalate ')' (by decide) ns
      (fun n hn => not_mem_of_isIdentifier n (hns n hn) ')' (by decide))),
    splitChar_intercalate ns hne
      (fun n hn => not_mem_of_isIdentifier n (hns n hn) ',' (by decide))]
  exact map_mk_data ns

theorem insertPlaceholders_pieces (label : String) (ns : List String) (k : Nat)
    (hL : isIdentifier label = true) (hk : k ≠ 0)
    (hns : ∀ n ∈ ns, isIdentifier n = true) :
    insertPlaceholders ⟨("INSERT INTO " ++ label ++ " ").data
          ++ '(' :: ((String.intercalate "," ns).data
          ++ ')' :: ((" VALUES " : String).data
          ++ '(' :: ((String.intercalate "," (List.replicate k "?")).data ++ [')'])))⟩
      = List.replicate k "?" := by
  have hL1 := not_mem_of_isIdentifier _ hL ')' (by decide)
  have hI1 := not_mem_intercalate ')' (by decide) ns
      (fun n hn => not_mem_of_isIdentifier n (hns n hn) ')' (by decide))
  have hq : ∀ (c : Char), c ≠ '?' → ∀ p ∈ List.replicate k "?", c ∉ p.data := by
    intro c hc p hp
    rw [List.eq_of_mem_replicate hp]
    simpa using hc
  have hI2 := not_mem_intercalate ')' (by decide) (List.replicate k "?") (hq ')' (by decide))
  have hshape : ("INSERT INTO " ++ label ++ " ").data
          ++ '(' :: ((String.intercalate "," ns).data
          ++ ')' :: ((" VALUES " : String).data
          ++ '(' :: ((String.intercalate "," (List.replicate k "?")).data ++ [')'])))
      = (("INSERT INTO " ++ label ++ " ").data ++ '(' :: (String.intercalate "," ns).data)
          ++ ')' :: ((" VALUES " : String).data
          ++ '(' :: ((String.intercalate "," (List.replicate k "?")).data ++ [')'])) := by
    simp [List.append_assoc]
  unfold insertPlaceholders
  rw [hshape, afterChar_append ')' _ _ (by simp [String.data_append, hL1, hI1]),
    afterChar_append '(' _ _ (by decide), untilChar_append ')' _ _ hI2,
    splitChar_intercalate _ (by simpa using hk) (hq ',' (by decide))]
  exact map_mk_data _

theorem updateAssignments_UpdateStatement (m : Mapping) (h : m.fields ≠ [])
    (hp : m.plain = true) :
    updateAssignments (UpdateStatement m) = m.fields.map (fun f => f.name ++ "=?") := by
  have hL := not_mem_of_isIdentifier _ (m.plain_label hp) ' ' (by decide)
  have hasg : ∀ (c : Char), identChar c = false → c ≠ '=' → c ≠ '?' →
      ∀ a ∈ m.fields.map (fun f => f.name ++ "=?"), c ∉ a.data := by
    intro c hc h1 h2 a ha
    obtain ⟨f, hf, rfl⟩ := List.mem_map.mp ha
    have := not_mem_of_isIdentifier _ (m.plain_name hp f hf) c hc
    simp [String.data_append, this, h1, h2]
  have hne : m.fields.map (fun f => f.name ++ "=?") ≠ [] := by simpa using h
  have hdata : (UpdateStatement m).data
      = ("UPDATE" : String).data ++ ' ' :: (m.getLabel.data ++ ' ' :: (("SET" : String).data
          ++ ' ' :: ((String.intercalate "," (m.fields.map (fun f => f.name ++ "=?"))).data
          ++ ' ' :: ("WHERE id=?" : String).data))) := by
    have hct : commaTerminated (m.fields.map (fun f => f.name ++ "=?")) ≠ [] := by
      rw [commaTerminated_eq_intercalate _ hne]
      simp
    rw [UpdateStatement_data, List.dropLast_append_of_ne_nil _ hct,
      commaTerminated_dropLast _ hne]
    simp [String.data_append, List.append_assoc]
  unfold updateAssignments
  rw [hdata, splitChar_append ' ' _ _ (by decide), splitChar_append ' ' _ _ hL,
    splitChar_append ' ' _ _ (by decide),
    splitChar_append ' ' _ _ (not_mem_intercalate ' ' (by decide) _
      (hasg ' ' (by decide) (by decide) (by decide)))]
  simp only [List.getD_cons_succ, List.getD_cons_zero]
  rw [splitChar_intercalate _ hne (hasg ',' (by decide) (by decide) (by decide))]
  exact map_mk_data _

theorem updateColumnNames_UpdateStatement (m : Mapping) (h : m.fields ≠ [])
    (hp : m.plain = true) :
    updateColumnNames (UpdateStatement m) = m.fields.map Field.name := by
  unfold updateColumnNames
  rw [updateAssignments_UpdateStatement m h hp, List.map_map]
  apply List.map_congr_left
  intro f hf
  have heq := not_mem_of_isIdentifier _ (m.plain_name hp f hf) '=' (by decide)
  have hshape : (f.name ++ "=?").data = f.name.data ++ '=' :: ['?'] := by
    simp [String.data_append]
  simp only [Function.comp, hshape, untilChar_append '=' _ _ heq]

end dm.SqlStatementBuilder

/-! ## The buffers before they are stripped -/

namespace dm.SqlStatementBuilder

theorem createBuffer_eq (m : Mapping) :
    createBuffer m
      = OStringStream.atEnd (("CREATE TABLE IF NOT EXISTS " ++ m.getLabel
            ++ "(id INTEGER PRIMARY KEY AUTOINCREMENT,").data
          ++ commaTerminated (m.fields.map Field.declaration)) := by
  unfold createBuffer Mapping.accept
  simp only [OStringStream.empty_eq_atEnd, OStringStream.write_atEnd, accept_declaration]
  simp [String.data_append, List.append_assoc]

theorem updateBuffer_eq (m : Mapping) :
    updateBuffer m
      = OStringStream.atEnd (("UPDATE " ++ m.getLabel ++ " SET ").data
          ++ commaTerminated (m.fields.map (fun f => f.name ++ "=?"))) := by
  unfold updateBuffer Mapping.accept
  simp only [OStringStream.empty_eq_atEnd, OStringStream.write_atEnd, accept_update]
  simp [String.data_append, List.append_assoc]

theorem insertBuffers_eq (m : Mapping) :
    insertBuffers m
      = (OStringStream.atEnd (commaTerminated (m.fields.map Field.name)),
         OStringStream.atEnd (commaTerminated (List.replicate m.fields.length "?"))) := by
  unfold insertBuffers Mapping.accept
  simp only [OStringStream.empty_eq_atEnd, accept_insert, List.nil_append]
  simp

theorem insertBuffers_eq_map (m : Mapping) :
    insertBuffers m
      = (OStringStream.atEnd (commaTerminated (m.fields.map Field.name)),
         OStringStream.atEnd (commaTerminated (m.fields.map (fun _ => "?")))) := by
  unfold insertBuffers Mapping.accept
  simp only [OStringStream.empty_eq_atEnd, accept_insert, List.nil_append]

theorem overwritten_atEnd (l : List Char) :
    overwritten (OStringStream.atEnd l) = l.getLast? := by
  unfold overwritten OStringStream.atEnd
  cases l with
  | nil => rfl
  | cons x xs =>
    simp only [List.length_cons, Nat.succ_ne_zero, if_false, Nat.add_sub_cancel]
    rw [List.getLast?_eq_getElem?]
    simp

/-- A comma-terminated list ends with the text of its last item and the comma
that follows it. -/
theorem commaTerminated_getLast (xs : List String) (h : xs ≠ []) :
    commaTerminated xs = commaTerminated xs.dropLast ++ ((xs.getLast h) ++ ",").data := by
  have hsplit : xs = xs.dropLast ++ [xs.getLast h] := (List.dropLast_append_getLast h).symm
  have happ : ∀ as bs : List String,
      commaTerminated (as ++ bs) = commaTerminated as ++ commaTerminated bs := by
    intro as bs
    simp [commaTerminated]
  conv => lhs; rw [hsplit]
  rw [happ, commaTerminated_cons, commaTerminated_nil]
  simp [String.data_append]

theorem commaTerminated_getLast? (xs : List String) (h : xs ≠ []) :
    (commaTerminated xs).getLast? = some ',' := by
  rw [commaTerminated_eq_intercalate xs h]
  simp

end dm.SqlStatementBuilder

/-! ## Narrow strings -/

namespace dm

theorem wcstombs_length (encode : Char → Option (List Byte)) (w : List Char) (n : Nat) :
    (wcstombs encode w n).length ≤ n := by
  induction w generalizing n with
  | nil => simp [wcstombs]
  | cons c cs ih =>
    unfold wcstombs
    split
    · simp
    · split
      · simp
      · split
        · rename_i bs _ hle
          have := ih (n - bs.length)
          rw [List.length_append]
          omega
        · simp

theorem toMBStr_length (encode : Char → Option (List Byte)) (w : List Char) :
    (toMBStr encode w).length = w.length := by
  have h := wcstombs_length encode w w.length
  simp only [toMBStr, List.length_append, List.length_drop, List.length_replicate]
  omega

theorem toNat_ofNat_of_lt (n : Nat) (h : n < 0xd800) : (Char.ofNat n).toNat = n := by
  have hv : n.isValidChar := Or.inl h
  unfold Char.ofNat
  rw [dif_pos hv]
  rfl

end dm

/-! ## Rows of the table -/

namespace dm.Repository

theorem filter_id_of_all_ne {α : Type} (rows : List (Entity α)) (id : Int)
    (h : ∀ r ∈ rows, r.id ≠ id) : rows.filter (fun r => r.id == id) = [] := by
  rw [List.filter_eq_nil_iff]
  intro r hr
  simpa using h r hr

theorem map_id_replaced {α : Type} (rows : List (Entity α)) (e : Entity α) :
    (rows.map (fun r => if r.id = e.id then e else r)).map Entity.id = rows.map Entity.id := by
  rw [List.map_map]
  apply List.map_congr_left
  intro r _
  by_cases hr : r.id = e.id
  · simp [hr]
  · simp [hr]

end dm.Repository

/-! ## The last visited field -/

namespace dm.SqlStatementBuilder

theorem commaTerminated_map_getLast (f : Field → String) (fs : List Field) (h : fs ≠ []) :
    commaTerminated (fs.map f)
      = commaTerminated (fs.dropLast.map f) ++ (f (fs.getLast h) ++ ",").data := by
  have hne : fs.map f ≠ [] := by simpa using h
  rw [commaTerminated_getLast (fs.map f) hne, List.getLast_map, List.map_dropLast]

theorem dropLast_commaTerminated_map (f : Field → String) (fs : List Field) (h : fs ≠ [])
    (a : List Char) :
    (a ++ commaTerminated (fs.map f)).dropLast
      = a ++ commaTerminated (fs.dropLast.map f) ++ (f (fs.getLast h)).data := by
  rw [commaTerminated_map_getLast f fs h]
  have hshape : a ++ (commaTerminated (fs.dropLast.map f) ++ (f (fs.getLast h) ++ ",").data)
      = (a ++ commaTerminated (fs.dropLast.map f) ++ (f (fs.getLast h)).data) ++ [','] := by
    simp [String.data_append, List.append_assoc]
  rw [hshape, List.dropLast_concat]

theorem getLast?_append_ne (a b : List Char) (c : Char) (hb : b ≠ []) (hc : c ∉ b) :
    (a ++ b).getLast? ≠ some c := by
  intro h
  rw [List.getLast?_append_of_ne_nil _ hb] at h
  exact hc (List.mem_of_getLast?_eq_some h)

theorem replicate_eq_map (fs : List Field) :
    List.replicate fs.length "?" = fs.map (fun _ => "?") := by
  simp

theorem isEmpty_false_of_ne (s : String) (h : s ≠ "") : s.data.isEmpty = false := by
  cases hs : s.data.isEmpty
  · rfl
  · exact absurd ((isEmpty_data_iff s).mp hs) h

end dm.SqlStatementBuilder

/-! ## Markers of any statement -/

namespace dm

theorem markerOwnersFrom_append (a b seen : List Char) :
    markerOwnersFrom seen (a ++ b)
      = markerOwnersFrom seen a ++ markerOwnersFrom (a.reverse ++ seen) b := by
  induction a generalizing seen with
  | nil => rfl
  | cons x xs ih =>
    have hrev : (x :: xs).reverse ++ seen = xs.reverse ++ (x :: seen) := by simp
    have hstep : ∀ l : List Char, markerOwnersFrom seen (x :: l)
        = (if x = '?' then [markerOwner seen] else []) ++ markerOwnersFrom (x :: seen) l := by
      intro l
      by_cases hx : x = '?'
      · simp [markerOwnersFrom, hx]
      · simp [markerOwnersFrom, hx]
    rw [List.cons_append, hstep (xs ++ b), hstep xs, ih, hrev, List.append_assoc]

theorem markerOwnersFrom_length (l seen : List Char) :
    (markerOwnersFrom seen l).length = l.count '?' := by
  induction l generalizing seen with
  | nil => rfl
  | cons x xs ih =>
    by_cases hx : x = '?'
    · simp [markerOwnersFrom, hx, ih]
    · have hne : ¬ (x == '?') = true := by simpa using hx
      simp [markerOwnersFrom, hx, ih, List.count_cons, hne]

theorem count_assignments (fs : List Field) :
    fs.length ≤ (((fs.map (fun g => g.name ++ "=?")).map (fun a => ',' :: a.data)).flatten).count '?' := by
  induction fs with
  | nil => simp
  | cons f fs ih =>
    simp only [List.map_cons, List.flatten_cons, List.count_append, List.length_cons,
      String.data_append, List.count_cons]
    have h1 : ('?' == '?') = true := by decide
    simp only [h1, if_true]
    omega

namespace SqlStatementBuilder

/-- The markers of `UpdateStatement()`, for any mapping: those of the text
before ` WHERE id=?`, and then the marker of `id`. -/
theorem markerOwners_UpdateStatement_split (m : Mapping) :
    markerOwners (UpdateStatement m)
      = markerOwnersFrom []
          (("UPDATE " ++ m.getLabel ++ " SET ").data
            ++ commaTerminated (m.fields.map (fun f => f.name ++ "=?"))).dropLast
        ++ ["id"] := by
  unfold markerOwners
  rw [UpdateStatement_data, markerOwnersFrom_append, markerOwnersFrom_where]

theorem count_UpdateStatement (m : Mapping) :
    m.fields.length + 1 ≤ (UpdateStatement m).data.count '?' := by
  have hw : ((" WHERE id=?" : String).data).count '?' = 1 := by decide
  cases hf : m.fields with
  | nil =>
    rw [UpdateStatement_pieces_nil m hf, List.count_append, hw]
    simp
  | cons f fs =>
    rw [UpdateStatement_pieces_cons m f fs hf]
    simp only [List.count_append, hw, List.length_cons]
    have h1 := count_assignments fs
    have h2 : (['=', '?'] : List Char).count '?' = 1 := by decide
    omega

end SqlStatementBuilder

/-! ## Binding and materializing a person -/

namespace Repository

theorem map_id_replaced_by {α : Type} (rows : List (Entity α)) (id : Int) (x : Entity α)
    (hx : x.id = id) :
    (rows.map (fun r => if r.id = id then x else r)).map Entity.id = rows.map Entity.id := by
  rw [List.map_map]
  apply List.map_congr_left
  intro r _
  by_cases hr : r.id = id
  · simp [hr, hx]
  · simp [hr]

theorem Save_valid {α : Type} (access : List (FieldAccess α)) (fresh : α) (t : Table α)
    (e : Entity α) (hv : t.valid) : (Save access fresh t e).1.valid := by
  unfold Save
  by_cases hu : e.id = unsetId
  · simp only [hu, if_true]
    have hnew : ∀ r ∈ t.rows, r.id ≠ t.lastId + 1 := by
      intro r hr
      have := hv.2 r hr
      omega
    constructor
    · simp only [List.map_append, List.map_cons, List.map_nil]
      rw [List.nodup_append]
      refine ⟨hv.1, List.nodup_singleton _, ?_⟩
      intro a ha hb
      rw [List.mem_singleton] at hb
      obtain ⟨r, hr, hra⟩ := List.mem_map.mp ha
      exact hnew r hr (hra.trans hb)
    · intro r hr
      rcases List.mem_append.mp hr with h1 | h2
      · have := hv.2 r h1
        show r.id ≤ t.lastId + 1
        omega
      · rw [List.mem_singleton.mp h2]
  · simp only [hu, if_false]
    constructor
    · show ((t.rows.map (fun r => if r.id = e.id then
          (⟨e.id, materialize access fresh (bindFields access e.attrs)⟩ : Entity α)
          else r)).map Entity.id).Nodup
      have hmap := map_id_replaced_by t.rows e.id
        (⟨e.id, materialize access fresh (bindFields access e.attrs)⟩ : Entity α) rfl
      rw [hmap]
      exact hv.1
    · intro r hr
      obtain ⟨r', hr', rfl⟩ := List.mem_map.mp hr
      by_cases hr2 : r'.id = e.id
      · rw [if_pos hr2]
        show e.id ≤ t.lastId
        rw [← hr2]
        exact hv.2 r' hr'
      · rw [if_neg hr2]
        exact hv.2 r' hr'

theorem DeleteId_valid {α : Type} (t : Table α) (id : Int) (hv : t.valid) :
    (DeleteId t id).valid := by
  constructor
  · exact hv.1.sublist ((List.filter_sublist _).map Entity.id)
  · intro r hr
    exact hv.2 r (List.mem_filter.mp hr).1

theorem Reachable.valid {α : Type} {access : List (FieldAccess α)} {fresh : α} {t : Table α}
    (h : Reachable access fresh t) : t.valid := by
  induction h with
  | empty => exact ⟨List.nodup_nil, fun _ hr => absurd hr (List.not_mem_nil _)⟩
  | save t e _ ih => exact Save_valid access fresh t e ih
  | delete t id _ ih => exact DeleteId_valid t id ih

end Repository

end dm

/-! ## Statements of the builder -/

namespace dm.SqlStatementBuilder

set_option maxRecDepth 100000

/-- C1: for a mapping with at least one field, `CreateTableStatement()` is
`CREATE TABLE IF NOT EXISTS <label>(id INTEGER PRIMARY KEY AUTOINCREMENT,`
followed by the declarations of the fields joined by commas, the closing
parenthesis, and `;<custom statements>` when those are not empty. -/
theorem CreateTableStatement_eq (m : Mapping) (h : m.fields ≠ []) :
    CreateTableStatement m
      = "CREATE TABLE IF NOT EXISTS " ++ m.getLabel ++ "(id INTEGER PRIMARY KEY AUTOINCREMENT,"
          ++ String.intercalate "," (m.fields.map Field.declaration) ++ ")"
          ++ (if m.customCreateStatements = "" then "" else ";" ++ m.customCreateStatements) := by
  apply String.ext
  have hne : m.fields.map Field.declaration ≠ [] := by simpa using h
  have hct : commaTerminated (m.fields.map Field.declaration) ≠ [] := by
    rw [commaTerminated_eq_intercalate _ hne]
    simp
  rw [CreateTableStatement_data, List.dropLast_append_of_ne_nil _ hct,
    commaTerminated_dropLast _ hne]
  simp [String.data_append, customSuffix, List.append_assoc]

/-- C1, on the mapping of the test: the statement is the string that
`testSqlStatementBuilding` asserts. -/
theorem CreateTableStatement_person :
    PersonMapping.fields ≠ [] ∧
    CreateTableStatement PersonMapping
      = "CREATE TABLE IF NOT EXISTS person(id INTEGER PRIMARY KEY AUTOINCREMENT,name TEXT UNIQUE NOT NULL,wname TEXT,age INT,height REAL);CREATE INDEX IF NOT EXISTS person_name_idx ON person (name)" :=
  ⟨by decide, (CreateTableStatement_eq PersonMapping (by decide)).trans rfl⟩

/-- C2: for a mapping with at least one field, `InsertStatement()` returns
`INSERT INTO <label> (<names joined by commas>) VALUES (<one ? per field,
joined by commas>)`. -/
theorem InsertStatement_eq (m : Mapping) (h : m.fields ≠ []) :
    InsertStatement m
      = some ("INSERT INTO " ++ m.getLabel ++ " ("
          ++ String.intercalate "," (m.fields.map Field.name) ++ ") VALUES ("
          ++ String.intercalate "," (List.replicate m.fields.length "?") ++ ")") := by
  rw [InsertStatement_pieces m h]
  congr 1
  apply String.ext
  simp [String.data_append, List.append_assoc]

/-- C2, on the mapping of the test: the statement is the string that
`testSqlStatementBuilding` asserts. -/
theorem InsertStatement_person :
    PersonMapping.fields ≠ [] ∧
    InsertStatement PersonMapping
      = some "INSERT INTO person (name,wname,age,height) VALUES (?,?,?,?)" :=
  ⟨by decide, (InsertStatement_eq PersonMapping (by decide)).trans rfl⟩

/-- C3: for a mapping with at least one field, `UpdateStatement()` is
`UPDATE <label> SET ` followed by the assignments `<name>=?` joined by commas
and ` WHERE id=?`: only the trailing comma is overwritten. -/
theorem UpdateStatement_eq (m : Mapping) (h : m.fields ≠ []) :
    UpdateStatement m
      = "UPDATE " ++ m.getLabel ++ " SET "
          ++ String.intercalate "," (m.fields.map (fun f => f.name ++ "=?"))
          ++ " WHERE id=?" := by
  apply String.ext
  have hne : m.fields.map (fun f => f.name ++ "=?") ≠ [] := by simpa using h
  have hct : commaTerminated (m.fields.map (fun f => f.name ++ "=?")) ≠ [] := by
    rw [commaTerminated_eq_intercalate _ hne]
    simp
  rw [UpdateStatement_data, List.dropLast_append_of_ne_nil _ hct,
    commaTerminated_dropLast _ hne]
  simp [String.data_append, List.append_assoc]

/-- C3, on the mapping of the test: the statement is the string that
`testSqlStatementBuilding` asserts. -/
theorem UpdateStatement_person :
    PersonMapping.fields ≠ [] ∧
    UpdateStatement PersonMapping
      = "UPDATE person SET name=?,wname=?,age=?,height=? WHERE id=?" :=
  ⟨by decide, (UpdateStatement_eq PersonMapping (by decide)).trans rfl⟩

/-- C4: for up to three field names the fixed-arity select builders return
the statement of the variadic reference definition. -/
theorem selectStatementFor_eq_variadic (m : Mapping) (fs : List String) (h : fs.length ≤ 3) :
    selectStatementFor m fs = some (variadicSelectStatement m.getLabel fs) := by
  match fs, h with
  | [], _ =>
    simp only [selectStatementFor, variadicSelectStatement, SelectAllStatement,
      OStringStream.empty_eq_atEnd, OStringStream.write_atEnd, OStringStream.str_atEnd]
    congr 1
    apply String.ext
    simp [String.data_append]
  | [f], _ =>
    simp only [selectStatementFor, variadicSelectStatement, SelectByFieldStatement,
      OStringStream.empty_eq_atEnd, OStringStream.write_atEnd, OStringStream.str_atEnd]
    congr 1
    apply String.ext
    simp [String.intercalate, String.intercalate.go, String.data_append, List.append_assoc]
  | [f1, f2], _ =>
    simp only [selectStatementFor, variadicSelectStatement, SelectByFieldStatement2,
      OStringStream.empty_eq_atEnd, OStringStream.write_atEnd, OStringStream.str_atEnd]
    congr 1
    apply String.ext
    simp [String.intercalate, String.intercalate.go, String.data_append, List.append_assoc]
  | [f1, f2, f3], _ =>
    simp only [selectStatementFor, variadicSelectStatement, SelectByFieldStatement3,
      OStringStream.empty_eq_atEnd, OStringStream.write_atEnd, OStringStream.str_atEnd]
    congr 1
    apply String.ext
    simp [String.intercalate, String.intercalate.go, String.data_append, List.append_assoc]
  | _ :: _ :: _ :: _ :: _, h => simp at h

/-- C4, on the mapping of the test: `SelectByFieldStatement("age")` is
`SELECT * FROM person WHERE age=?`. -/
theorem selectStatementFor_person_age :
    ["age"].length ≤ 3 ∧
    selectStatementFor PersonMapping ["age"] = some (SelectByFieldStatement PersonMapping "age") ∧
    selectStatementFor PersonMapping ["age"] = some "SELECT * FROM person WHERE age=?" :=
  ⟨by decide, rfl,
    (selectStatementFor_eq_variadic PersonMapping ["age"] (by decide)).trans rfl⟩

/-- C5: the three delete statements are `DELETE FROM <label>`,
`DELETE FROM <label> WHERE <field>=?` and `DELETE FROM <label> WHERE id=?`;
deleting by id is deleting by the field `id`, and `DeleteAllStatement()` is the
part of both before ` WHERE`. -/
theorem DeleteStatements_eq (m : Mapping) (f : String) :
    DeleteAllStatement m = "DELETE FROM " ++ m.getLabel ∧
    DeleteByFieldStatement m f = "DELETE FROM " ++ m.getLabel ++ " WHERE " ++ f ++ "=?" ∧
    DeleteByIdStatement m = "DELETE FROM " ++ m.getLabel ++ " WHERE id=?" ∧
    DeleteByIdStatement m = DeleteByFieldStatement m "id" ∧
    DeleteByIdStatement m = DeleteAllStatement m ++ " WHERE id=?" ∧
    DeleteByFieldStatement m f = DeleteAllStatement m ++ " WHERE " ++ f ++ "=?" := by
  simp only [DeleteAllStatement, DeleteByFieldStatement, DeleteByIdStatement,
    OStringStream.empty_eq_atEnd, OStringStream.write_atEnd, OStringStream.str_atEnd]
  refine ⟨?_, ?_, ?_, ?_, ?_, ?_⟩ <;> apply String.ext <;>
    simp [String.data_append, List.append_assoc]

/-- C6: `SelectByIdStatement()` is `SelectByFieldStatement("id")`, which is
`SELECT * FROM <label> WHERE id=?`. -/
theorem SelectByIdStatement_eq (m : Mapping) :
    SelectByIdStatement m = SelectByFieldStatement m "id" ∧
    SelectByFieldStatement m "id" = "SELECT * FROM " ++ m.getLabel ++ " WHERE id=?" := by
  refine ⟨rfl, ?_⟩
  simp only [SelectByFieldStatement, OStringStream.empty_eq_atEnd, OStringStream.write_atEnd,
    OStringStream.str_atEnd]
  apply String.ext
  simp [String.data_append, List.append_assoc]

/-- C6, on the mapping of the test: `SelectByIdStatement()` is
`SELECT * FROM person WHERE id=?`. -/
theorem SelectByIdStatement_person :
    SelectByIdStatement PersonMapping = "SELECT * FROM person WHERE id=?" :=
  ((SelectByIdStatement_eq PersonMapping).1.trans (SelectByIdStatement_eq PersonMapping).2).trans rfl

/-- C7: on a mapping that visits no field, whatever its label and custom
statements, `InsertStatement()` has no result: both accumulated strings are
empty and `erase(end() - 1)` is out of bounds, so there is no column list and
no placeholder list with zero entries. -/
theorem InsertStatement_without_fields (label custom : String) :
    InsertStatement ⟨label, [], custom⟩ = none := by
  unfold InsertStatement Mapping.accept
  simp only [List.foldl_nil, OStringStream.empty_eq_atEnd, OStringStream.str_atEnd]
  rfl

/-- C8: for every mapping, with or without fields, `CreateTableStatement()`
has, between the declaration of the key and the closing parenthesis, one
declaration per field, each after a comma: as many declarations as fields, the
`i`-th being the declaration of the `i`-th field. -/
theorem CreateTableStatement_declarations (m : Mapping) :
    CreateTableStatement m
      = "CREATE TABLE IF NOT EXISTS " ++ m.getLabel ++ "(" ++ "id INTEGER PRIMARY KEY AUTOINCREMENT"
          ++ String.join ((m.fields.map Field.declaration).map (fun d => "," ++ d)) ++ ")"
          ++ (if m.customCreateStatements = "" then "" else ";" ++ m.customCreateStatements) ∧
    (m.fields.map Field.declaration).length = m.fields.length ∧
    ∀ i : Nat, (m.fields.map Field.declaration)[i]? = (m.fields[i]?).map Field.declaration := by
  refine ⟨?_, List.length_map _ _, fun i => List.getElem?_map _ _ _⟩
  apply String.ext
  rw [CreateTableStatement_pieces]
  have hjoin : (String.join ((m.fields.map Field.declaration).map (fun d => "," ++ d))).data
      = ((m.fields.map Field.declaration).map (fun d => ',' :: d.data)).flatten := by
    rw [String.data_join, List.map_map]
    rfl
  simp only [String.data_append, hjoin, customSuffix, List.append_assoc]
  rfl

/-- C9: field order is the same in every statement. For a mapping with at
least one field, the declarations of `CreateTableStatement()`, the column list
and the placeholder list of `InsertStatement()` and the assignments of
`UpdateStatement()` are each made, entry by entry and in this order, of the
one sequence of names of the visited fields: entry `i` is the name of field
`i` followed by its type and constraint, the name itself, the `?` of that
name, and the name followed by `=?`. -/
theorem field_order_same_in_every_statement (m : Mapping) (h : m.fields ≠ []) :
    CreateTableStatement m
      = "CREATE TABLE IF NOT EXISTS " ++ m.getLabel ++ "(id INTEGER PRIMARY KEY AUTOINCREMENT,"
          ++ String.intercalate ","
              (List.zipWith (fun n f => n ++ " " ++ f.typeAndConstraint)
                (m.fields.map Field.name) m.fields)
          ++ ")"
          ++ (if m.customCreateStatements = "" then "" else ";" ++ m.customCreateStatements) ∧
    InsertStatement m
      = some ("INSERT INTO " ++ m.getLabel ++ " ("
          ++ String.intercalate "," (m.fields.map Field.name) ++ ") VALUES ("
          ++ String.intercalate "," ((m.fields.map Field.name).map (fun _ => "?")) ++ ")") ∧
    UpdateStatement m
      = "UPDATE " ++ m.getLabel ++ " SET "
          ++ String.intercalate "," ((m.fields.map Field.name).map (fun n => n ++ "=?"))
          ++ " WHERE id=?" ∧
    ∀ (i : Nat) (f : Field), m.fields[i]? = some f →
      (List.zipWith (fun n f => n ++ " " ++ f.typeAndConstraint)
          (m.fields.map Field.name) m.fields)[i]? = some (f.name ++ " " ++ f.typeAndConstraint) ∧
      (m.fields.map Field.name)[i]? = some f.name ∧
      ((m.fields.map Field.name).map (fun _ => "?"))[i]? = some "?" ∧
      ((m.fields.map Field.name).map (fun n => n ++ "=?"))[i]? = some (f.name ++ "=?") := by
  have hzip : ∀ fs : List Field,
      List.zipWith (fun n f => n ++ " " ++ f.typeAndConstraint) (fs.map Field.name) fs
        = fs.map Field.declaration := by
    intro fs
    induction fs with
    | nil => rfl
    | cons f fs ih =>
      rw [List.map_cons, List.zipWith_cons_cons, ih, List.map_cons, Field.declaration_eq]
  have hq : (m.fields.map Field.name).map (fun _ => "?") = List.replicate m.fields.length "?" := by
    rw [List.map_map, replicate_eq_map]
    rfl
  have hasg : (m.fields.map Field.name).map (fun n => n ++ "=?")
      = m.fields.map (fun f => f.name ++ "=?") := by
    rw [List.map_map]
    rfl
  refine ⟨?_, ?_, ?_, ?_⟩
  · apply String.ext
    have hne : m.fields.map Field.declaration ≠ [] := by simpa using h
    have hct : commaTerminated (m.fields.map Field.declaration) ≠ [] := by
      rw [commaTerminated_eq_intercalate _ hne]
      simp
    rw [hzip, CreateTableStatement_data, List.dropLast_append_of_ne_nil _ hct,
      commaTerminated_dropLast _ hne]
    simp [String.data_append, customSuffix, List.append_assoc]
  · rw [hq, InsertStatement_pieces m h]
    congr 1
    apply String.ext
    simp [String.data_append, List.append_assoc]
  · apply String.ext
    have hne : m.fields.map (fun f => f.name ++ "=?") ≠ [] := by simpa using h
    have hct : commaTerminated (m.fields.map (fun f => f.name ++ "=?")) ≠ [] := by
      rw [commaTerminated_eq_intercalate _ hne]
      simp
    rw [hasg, UpdateStatement_data, List.dropLast_append_of_ne_nil _ hct,
      commaTerminated_dropLast _ hne]
    simp [String.data_append, List.append_assoc]
  · intro i f hi
    rw [hzip, hasg]
    refine ⟨?_, ?_, ?_, ?_⟩
    · rw [List.getElem?_map, hi, Option.map_some', Field.declaration_eq]
    · rw [List.getElem?_map, hi, Option.map_some']
    · rw [List.getElem?_map, List.getElem?_map, hi, Option.map_some', Option.map_some']
    · rw [List.getElem?_map, hi, Option.map_some']

/-- C9, on the mapping of the test: all three statements list `name`, `wname`,
`age`, `height`, in this order, and the third entry of each list is that of
`age`. -/
theorem field_order_person :
    PersonMapping.fields ≠ [] ∧
    PersonMapping.fields.map Field.name = ["name", "wname", "age", "height"] ∧
    CreateTableStatement PersonMapping
      = "CREATE TABLE IF NOT EXISTS person(id INTEGER PRIMARY KEY AUTOINCREMENT,"
        ++ "name TEXT UNIQUE NOT NULL,wname TEXT,age INT,height REAL)"
        ++ ";CREATE INDEX IF NOT EXISTS person_name_idx ON person (name)" ∧
    InsertStatement PersonMapping
      = some "INSERT INTO person (name,wname,age,height) VALUES (?,?,?,?)" ∧
    UpdateStatement PersonMapping
      = "UPDATE person SET name=?,wname=?,age=?,height=? WHERE id=?" ∧
    ((PersonMapping.fields.map Field.name).map (fun n => n ++ "=?"))[2]? = some "age=?" :=
  have h := field_order_same_in_every_statement PersonMapping (by decide)
  ⟨by decide, by decide, h.1.trans rfl, h.2.1.trans rfl, h.2.2.1.trans rfl,
    (h.2.2.2 2 ⟨"age", .INT, none⟩ rfl).2.2.2⟩

/-- Reading the statements back: for a plain mapping with at least one field,
splitting the three statements at their parentheses, commas, spaces and `=`
yields the names of the fields in visiting order, one `?` per field, and the
field that each marker of `UpdateStatement()` belongs to. -/
theorem columnNames_read_back (m : Mapping) (h : m.fields ≠ [])
    (hp : m.plain = true) :
    createColumnNames (CreateTableStatement m) = m.fields.map Field.name ∧
    (InsertStatement m).map insertColumnNames = some (m.fields.map Field.name) ∧
    (InsertStatement m).map insertPlaceholders = some (List.replicate m.fields.length "?") ∧
    updateColumnNames (UpdateStatement m) = m.fields.map Field.name ∧
    updateAssignments (UpdateStatement m) = m.fields.map (fun f => f.name ++ "=?") ∧
    (markerOwners (UpdateStatement m)).take m.fields.length = m.fields.map Field.name := by
  have hL := m.plain_label hp
  have hnames : ∀ n ∈ m.fields.map Field.name, isIdentifier n = true := by
    intro n hn
    obtain ⟨f, hf, rfl⟩ := List.mem_map.mp hn
    exact m.plain_name hp f hf
  have hne : m.fields.map Field.name ≠ [] := by simpa using h
  have hlen : m.fields.length ≠ 0 := by
    intro h0
    exact h (List.length_eq_zero.mp h0)
  refine ⟨createColumnNames_CreateTableStatement m hp, ?_, ?_,
    updateColumnNames_UpdateStatement m h hp, updateAssignments_UpdateStatement m h hp, ?_⟩
  · rw [InsertStatement_pieces m h, Option.map_some',
      insertColumnNames_pieces _ _ _ hL hne hnames]
  · rw [InsertStatement_pieces m h, Option.map_some',
      insertPlaceholders_pieces _ _ _ hL hlen hnames]
  · rw [markerOwners_UpdateStatement m (m.identifiers_of_plain hp)]
    have hl : m.fields.length = (m.fields.map Field.name).length := (List.length_map _ _).symm
    rw [hl, List.take_left']
    rfl

/-- C10, as stated, fails on the mapping of the test: the first `?` marker of
`UPDATE person SET name=?,wname=?,age=?,height=? WHERE id=?` belongs to
`name`, not to `id`. -/
theorem first_marker_of_UpdateStatement_person :
    (markerOwners (UpdateStatement PersonMapping)).head? = some "name" ∧
    (markerOwners (UpdateStatement PersonMapping)).head? ≠ some "id" := by
  decide

/-- C10, amended: in `UpdateStatement()` of any mapping the last `?` marker
belongs to `id` and at least as many markers as there are visited fields
precede it; when the label and the field names are unquoted SQL identifiers,
the markers belong to the visited fields, in order, and then to `id`. -/
theorem id_marker_last_in_UpdateStatement (m : Mapping) :
    (markerOwners (UpdateStatement m)).getLast? = some "id" ∧
    m.fields.length + 1 ≤ (markerOwners (UpdateStatement m)).length ∧
    (m.identifiers = true →
      markerOwners (UpdateStatement m) = m.fields.map Field.name ++ ["id"]) := by
  refine ⟨?_, ?_, fun hi => markerOwners_UpdateStatement m hi⟩
  · rw [markerOwners_UpdateStatement_split]
    exact List.getLast?_concat _
  · unfold markerOwners
    rw [markerOwnersFrom_length]
    exact count_UpdateStatement m

/-- C10, amended, on the mapping of the test: the markers belong to `name`,
`wname`, `age`, `height` and, last, `id`. -/
theorem id_marker_last_person :
    PersonMapping.identifiers = true ∧
    (markerOwners (UpdateStatement PersonMapping)).getLast? = some "id" ∧
    markerOwners (UpdateStatement PersonMapping) = ["name", "wname", "age", "height", "id"] :=
  ⟨by decide, (id_marker_last_in_UpdateStatement PersonMapping).1,
    (id_marker_last_in_UpdateStatement PersonMapping).2.2 (by decide)⟩

end dm.SqlStatementBuilder

/-! ## Transcoding, field names and the repository -/

namespace dm

set_option maxRecDepth 100000

/-- C11: `toMBStr` is not lossless. In every locale the narrow string has
exactly as many bytes as the wide string has characters, so in every locale
two different wide strings without a null character yield the same narrow
string; in a UTF-8 locale the wide name `ŽŸ®` of the test is cut after `Ž`
(bytes `C5 BD`, then a zero byte) and coincides with that of `Ž¥¥`. -/
theorem toMBStr_not_lossless :
    (∀ (encode : Char → Option (List Byte)) (w : List Char),
      (toMBStr encode w).length = w.length) ∧
    (∀ encode : Char → Option (List Byte), ∃ w₁ w₂ : List Char,
      w₁ ≠ w₂ ∧ (∀ c ∈ w₁, c.toNat ≠ 0) ∧ (∀ c ∈ w₂, c.toNat ≠ 0) ∧
      toMBStr encode w₁ = toMBStr encode w₂) ∧
    toMBStr utf8 "ŽŸ®".data = [197, 189, 0] ∧
    toMBStr utf8 "ŽŸ®".data = toMBStr utf8 "Ž¥¥".data ∧
    "ŽŸ®".data ≠ "Ž¥¥".data := by
  refine ⟨toMBStr_length, ?_, by decide, by decide, by decide⟩
  intro encode
  obtain ⟨i, j, hij, hf⟩ := Fintype.exists_ne_map_eq_of_card_lt
    (fun i : Fin 257 => (toMBStr encode [Char.ofNat (i.val + 1)]).headD (byte 0))
    (by simp)
  have hone : ∀ k : Fin 257, toMBStr encode [Char.ofNat (k.val + 1)]
      = [(toMBStr encode [Char.ofNat (k.val + 1)]).headD (byte 0)] := by
    intro k
    have hlen := toMBStr_length encode [Char.ofNat (k.val + 1)]
    match hl : toMBStr encode [Char.ofNat (k.val + 1)], hlen with
    | [b], _ => rfl
  have hnat : ∀ k : Fin 257, (Char.ofNat (k.val + 1)).toNat = k.val + 1 := fun k =>
    toNat_ofNat_of_lt _ (by have := k.isLt; omega)
  refine ⟨[Char.ofNat (i.val + 1)], [Char.ofNat (j.val + 1)], ?_, ?_, ?_, ?_⟩
  · intro heq
    have hc : Char.ofNat (i.val + 1) = Char.ofNat (j.val + 1) := by simpa using heq
    have hv := congrArg Char.toNat hc
    rw [hnat i, hnat j] at hv
    exact hij (Fin.ext (by omega))
  · intro c hc
    rw [List.mem_singleton.mp hc, hnat i]
    omega
  · intro c hc
    rw [List.mem_singleton.mp hc, hnat j]
    omega
  · rw [hone i, hone j]
    exact congrArg (fun b => [b]) hf

namespace SqlStatementBuilder

/-- C12: `SelectByFieldStatement` and `DeleteByFieldStatement` take any field
name as it is: the name stands verbatim between ` WHERE ` and `=?`, and two
mappings with the same label yield the same statements, whatever fields they
declare. -/
theorem byField_statements_ignore_fields (m m' : Mapping) (f : String)
    (h : m.getLabel = m'.getLabel) :
    SelectByFieldStatement m f = "SELECT * FROM " ++ m.getLabel ++ " WHERE " ++ f ++ "=?" ∧
    DeleteByFieldStatement m f = "DELETE FROM " ++ m.getLabel ++ " WHERE " ++ f ++ "=?" ∧
    SelectByFieldStatement m f = SelectByFieldStatement m' f ∧
    DeleteByFieldStatement m f = DeleteByFieldStatement m' f := by
  have hs : ∀ k : Mapping, SelectByFieldStatement k f
      = "SELECT * FROM " ++ k.getLabel ++ " WHERE " ++ f ++ "=?" := by
    intro k
    simp only [SelectByFieldStatement, OStringStream.empty_eq_atEnd, OStringStream.write_atEnd,
      OStringStream.str_atEnd]
    apply String.ext
    simp [String.data_append, List.append_assoc]
  have hd : ∀ k : Mapping, DeleteByFieldStatement k f
      = "DELETE FROM " ++ k.getLabel ++ " WHERE " ++ f ++ "=?" := by
    intro k
    simp only [DeleteByFieldStatement, OStringStream.empty_eq_atEnd, OStringStream.write_atEnd,
      OStringStream.str_atEnd]
    apply String.ext
    simp [String.data_append, List.append_assoc]
  refine ⟨hs m, hd m, ?_, ?_⟩
  · rw [hs m, hs m', h]
  · rw [hd m, hd m', h]

/-- C12, on the mapping of the test and a mapping with the same label and no
field: the undeclared and the empty name are taken as they are. -/
theorem byField_statements_person :
    PersonMapping.getLabel = (⟨"person", [], ""⟩ : Mapping).getLabel ∧
    SelectByFieldStatement PersonMapping "nosuchfield"
      = "SELECT * FROM person WHERE nosuchfield=?" ∧
    SelectByFieldStatement PersonMapping "nosuchfield"
      = SelectByFieldStatement ⟨"person", [], ""⟩ "nosuchfield" ∧
    DeleteByFieldStatement PersonMapping "" = "DELETE FROM person WHERE =?" :=
  ⟨rfl,
    (byField_statements_ignore_fields PersonMapping ⟨"person", [], ""⟩ "nosuchfield" rfl).1.trans rfl,
    (byField_statements_ignore_fields PersonMapping ⟨"person", [], ""⟩ "nosuchfield" rfl).2.2.1,
    (byField_statements_ignore_fields PersonMapping ⟨"person", [], ""⟩ "" rfl).2.1.trans rfl⟩

end SqlStatementBuilder

namespace Repository

/-- C13: the contract of the reads that return exactly one entity: the read
fails with `DoesNotExistError` exactly when there is no row; it returns the
row when there is exactly one; it fails with `NotOneError` exactly when there
are two or more rows and many are not allowed; and it returns the first row
when there are two or more rows and many are allowed. -/
theorem GetByQuery_contract {α : Type} (rows : List (Entity α)) (allowMany : Bool) :
    (GetByQuery rows allowMany = .error .DoesNotExistError ↔ rows = []) ∧
    (∀ r, rows = [r] → GetByQuery rows allowMany = .ok r) ∧
    (GetByQuery rows allowMany = .error .NotOneError ↔ 2 ≤ rows.length ∧ allowMany = false) ∧
    (∀ r, 2 ≤ rows.length → allowMany = true → rows.head? = some r →
      GetByQuery rows allowMany = .ok r) := by
  match rows with
  | [] => simp [GetByQuery]
  | [r] => simp [GetByQuery]
  | r :: r' :: rest =>
    cases allowMany <;> simp [GetByQuery]

/-- C13, on the rows of the test: the query for `%vin` yields Ervin and
Marvin, which is `NotOneError`, or Ervin when many are allowed; no row is
`DoesNotExistError`. -/
theorem GetByQuery_contract_test :
    (GetByQuery ([] : List (Entity PersonAttributes)) false = .error .DoesNotExistError) ∧
    GetByQuery [steve] false = .ok steve ∧
    GetByQuery [ervin, marvin] false = .error .NotOneError ∧
    GetByQuery [ervin, marvin] true = .ok ervin :=
  ⟨(GetByQuery_contract [] false).1.mpr rfl,
    (GetByQuery_contract [steve] false).2.1 steve rfl,
    (GetByQuery_contract [ervin, marvin] false).2.2.1.mpr ⟨by decide, rfl⟩,
    (GetByQuery_contract [ervin, marvin] true).2.2.2 ervin (by decide) rfl rfl⟩

/-- C15: `Delete(entity)` removes exactly the rows with the id of the entity,
sets the id of the entity to the unset sentinel `-1` and leaves its attributes
as they are; afterwards `Get` with the id from before the delete fails with
`DoesNotExistError`. -/
theorem Delete_entity {α : Type} (t : Table α) (e : Entity α) :
    (Delete t e).1.rows = t.rows.filter (fun r => r.id != e.id) ∧
    (Delete t e).2.id = -1 ∧
    (Delete t e).2.attrs = e.attrs ∧
    Get (Delete t e).1 e.id = .error .DoesNotExistError := by
  refine ⟨rfl, rfl, rfl, ?_⟩
  simp only [Get, Delete, DeleteId, selectById]
  rw [filter_id_of_all_ne]
  · rfl
  · intro r hr
    have := (List.mem_filter.mp hr).2
    simpa using this

/-- C15, on the deletion of the test: `Delete(marvin)` leaves `marvin.id ==
-1`, keeps his attributes, leaves Steve in the table, and `Get(2)` fails. -/
theorem Delete_marvin :
    (Delete tableBeforeMarvinIsDeleted marvin).2.id = -1 ∧
    (Delete tableBeforeMarvinIsDeleted marvin).2.attrs = marvin.attrs ∧
    (Delete tableBeforeMarvinIsDeleted marvin).1.rows = [steve] ∧
    Get (Delete tableBeforeMarvinIsDeleted marvin).1 2 = .error .DoesNotExistError :=
  ⟨(Delete_entity tableBeforeMarvinIsDeleted marvin).2.1,
    (Delete_entity tableBeforeMarvinIsDeleted marvin).2.2.1,
    (Delete_entity tableBeforeMarvinIsDeleted marvin).1.trans (by decide),
    (Delete_entity tableBeforeMarvinIsDeleted marvin).2.2.2⟩

end Repository

end dm

/-! ## The trailing comma -/

namespace dm.SqlStatementBuilder

set_option maxRecDepth 100000

/-- C16: on a mapping without fields the builders strip a character that is
not the comma of a visited field. The character that `UpdateStatement()`
overwrites is the space after `SET`, and the statement is
`UPDATE t SET WHERE id=?`; `InsertStatement()` erases from two empty strings
and has no result. -/
theorem overwritten_without_fields :
    overwritten (updateBuffer ⟨"t", [], ""⟩) = some ' ' ∧
    overwritten (updateBuffer ⟨"t", [], ""⟩) ≠ some ',' ∧
    UpdateStatement ⟨"t", [], ""⟩ = "UPDATE t SET WHERE id=?" ∧
    (insertBuffers ⟨"t", [], ""⟩).1.str = "" ∧
    (insertBuffers ⟨"t", [], ""⟩).2.str = "" ∧
    InsertStatement ⟨"t", [], ""⟩ = none := by
  decide

/-- The trailing comma of a mapping with at least one field: in each of the
three builders the buffer ends with the text of the last visited field and its
comma, that comma is the one character that is removed or overwritten, and
the statement keeps every other character of the buffer. The placeholder
list and the assignments end in `?`; when the mapping is plain and its names
are not empty, no comma stands before the closing parenthesis of the
declarations or of the column list. -/
theorem trailing_comma_stripped (m : Mapping) (h : m.fields ≠ []) :
    ((createBuffer m).buf
        = (createBuffer { m with fields := m.fields.dropLast }).buf
          ++ ((m.fields.getLast h).declaration ++ ",").data ∧
      overwritten (createBuffer m) = some ',' ∧
      (CreateTableStatement m).data
        = (createBuffer m).buf.dropLast
          ++ (")" ++ (if m.customCreateStatements = "" then ""
                else ";" ++ m.customCreateStatements)).data) ∧
    ((insertBuffers m).1.buf
        = (insertBuffers { m with fields := m.fields.dropLast }).1.buf
          ++ ((m.fields.getLast h).name ++ ",").data ∧
      (insertBuffers m).2.buf
        = (insertBuffers { m with fields := m.fields.dropLast }).2.buf ++ ("?," : String).data ∧
      InsertStatement m
        = some ⟨("INSERT INTO " ++ m.getLabel ++ " (").data ++ (insertBuffers m).1.buf.dropLast
            ++ (") VALUES (" : String).data ++ (insertBuffers m).2.buf.dropLast
            ++ (")" : String).data⟩) ∧
    ((updateBuffer m).buf
        = (updateBuffer { m with fields := m.fields.dropLast }).buf
          ++ ((m.fields.getLast h).name ++ "=?,").data ∧
      overwritten (updateBuffer m) = some ',' ∧
      (UpdateStatement m).data
        = (updateBuffer m).buf.dropLast ++ (" WHERE id=?" : String).data) ∧
    ((insertBuffers m).2.buf.dropLast.getLast? = some '?' ∧
      (updateBuffer m).buf.dropLast.getLast? = some '?') ∧
    (m.plain = true → m.named = true →
      (createBuffer m).buf.dropLast.getLast? ≠ some ',' ∧
      (insertBuffers m).1.buf.dropLast.getLast? ≠ some ',') := by
  have hlast := List.getLast_mem h
  have hd : m.fields.map Field.declaration ≠ [] := by simpa using h
  have hn : m.fields.map Field.name ≠ [] := by simpa using h
  have ha : m.fields.map (fun f => f.name ++ "=?") ≠ [] := by simpa using h
  have hq : m.fields.map (fun _ => "?") ≠ [] := by simpa using h
  have hr : List.replicate m.fields.length "?" ≠ [] := by
    rw [replicate_eq_map]
    exact hq
  refine ⟨⟨?_, ?_, ?_⟩, ⟨?_, ?_, ?_⟩, ⟨?_, ?_, ?_⟩, ⟨?_, ?_⟩, ?_⟩
  · rw [createBuffer_eq, createBuffer_eq, commaTerminated_map_getLast _ _ h]
    simp [OStringStream.atEnd, List.append_assoc]
  · rw [createBuffer_eq, overwritten_atEnd,
      List.getLast?_append_of_ne_nil _ (by
        rw [commaTerminated_eq_intercalate _ hd]
        simp),
      commaTerminated_getLast? _ hd]
  · rw [CreateTableStatement_data, createBuffer_eq]
    simp [OStringStream.atEnd, customSuffix]
  · rw [insertBuffers_eq_map, insertBuffers_eq_map, commaTerminated_map_getLast _ _ h]
    rfl
  · rw [insertBuffers_eq_map, insertBuffers_eq_map,
      commaTerminated_map_getLast (fun _ => "?") _ h]
    rfl
  · rw [InsertStatement_pieces m h, insertBuffers_eq]
    simp only [OStringStream.atEnd, commaTerminated_dropLast _ hn,
      commaTerminated_dropLast _ hr]
    congr 1
    apply String.ext
    simp [String.data_append, List.append_assoc]
  · rw [updateBuffer_eq, updateBuffer_eq,
      commaTerminated_map_getLast (fun f => f.name ++ "=?") _ h]
    simp [OStringStream.atEnd, String.data_append, List.append_assoc]
  · rw [updateBuffer_eq, overwritten_atEnd,
      List.getLast?_append_of_ne_nil _ (by
        rw [commaTerminated_eq_intercalate _ ha]
        simp),
      commaTerminated_getLast? _ ha]
  · rw [UpdateStatement_data, updateBuffer_eq]
    simp [OStringStream.atEnd]
  · rw [insertBuffers_eq_map]
    simp only [OStringStream.atEnd]
    rw [← List.nil_append (commaTerminated _),
      dropLast_commaTerminated_map (fun _ => "?") _ h]
    exact List.getLast?_concat _
  · rw [updateBuffer_eq]
    simp only [OStringStream.atEnd]
    rw [dropLast_commaTerminated_map (fun f => f.name ++ "=?") _ h]
    have hshape : ((m.fields.getLast h).name ++ "=?").data
        = ((m.fields.getLast h).name.data ++ ['=']) ++ ['?'] := by
      simp [String.data_append]
    rw [hshape, ← List.append_assoc]
    exact List.getLast?_concat _
  · intro hp hnamed
    have hname := m.plain_name hp _ hlast
    have hcon := m.plain_constraint hp _ hlast
    constructor
    · rw [createBuffer_eq]
      simp only [OStringStream.atEnd]
      rw [dropLast_commaTerminated_map Field.declaration _ h]
      obtain ⟨rest, hrest⟩ := (m.fields.getLast h).declaration_data
      exact getLast?_append_ne _ _ ',' (by rw [hrest]; simp)
        ((m.fields.getLast h).declaration_not_mem hname hcon).1
    · rw [insertBuffers_eq]
      simp only [OStringStream.atEnd]
      rw [← List.nil_append (commaTerminated _),
        dropLast_commaTerminated_map Field.name _ h]
      have hnonempty : (m.fields.getLast h).name.data ≠ [] := by
        have hall := List.all_eq_true.mp hnamed _ hlast
        intro hnil
        simp [hnil] at hall
      exact getLast?_append_ne _ _ ',' hnonempty
        (not_mem_of_isIdentifier _ hname ',' (by decide))

/-- The trailing comma of the mapping of the test: the comma after `height REAL`,
after `height`, after the fourth `?` and after `height=?` is the character
that is stripped. -/
theorem trailing_comma_stripped_person :
    PersonMapping.fields ≠ [] ∧
    overwritten (createBuffer PersonMapping) = some ',' ∧
    overwritten (updateBuffer PersonMapping) = some ',' ∧
    (insertBuffers PersonMapping).1.str = "name,wname,age,height," ∧
    (insertBuffers PersonMapping).2.str = "?,?,?,?," ∧
    (updateBuffer PersonMapping).buf.dropLast.getLast? = some '?' ∧
    (createBuffer PersonMapping).buf.dropLast.getLast? ≠ some ',' :=
  have h := trailing_comma_stripped PersonMapping (by decide)
  ⟨by decide, h.1.2.1, h.2.2.1.2.1, by decide, by decide, h.2.2.2.1.2,
    (h.2.2.2.2 (by decide) (by decide)).1⟩

/-- C17: `InsertStatement()` has a result exactly when the mapping visits at
least one field. With a field, both accumulated strings end in a comma and
each erasure removes that comma; without one, both strings are empty, the
erasure has no result and neither has `InsertStatement()`. -/
theorem InsertStatement_defined_iff (m : Mapping) :
    ((InsertStatement m).isSome = true ↔ m.fields ≠ []) ∧
    (m.fields ≠ [] →
      (insertBuffers m).1.buf.getLast? = some ',' ∧
      (insertBuffers m).2.buf.getLast? = some ',' ∧
      eraseLast (insertBuffers m).1.str = some ⟨(insertBuffers m).1.buf.dropLast⟩ ∧
      eraseLast (insertBuffers m).2.str = some ⟨(insertBuffers m).2.buf.dropLast⟩) ∧
    (m.fields = [] →
      (insertBuffers m).1.str = "" ∧ (insertBuffers m).2.str = "" ∧
      eraseLast (insertBuffers m).1.str = none ∧ eraseLast (insertBuffers m).2.str = none ∧
      InsertStatement m = none) := by
  have hnil : m.fields = [] → InsertStatement m = none := by
    intro h0
    unfold InsertStatement Mapping.accept
    rw [h0]
    rfl
  refine ⟨?_, ?_, ?_⟩
  · constructor
    · intro hsome h0
      rw [hnil h0] at hsome
      exact absurd hsome (by decide)
    · intro h
      rw [InsertStatement_pieces m h]
      rfl
  · intro h
    have hn : m.fields.map Field.name ≠ [] := by simpa using h
    have hq : List.replicate m.fields.length "?" ≠ [] := by
      rw [replicate_eq_map]
      simpa using h
    have hne : ∀ xs : List String, xs ≠ [] → (commaTerminated xs).isEmpty = false := by
      intro xs hxs
      rw [commaTerminated_eq_intercalate xs hxs]
      simp
    have herase : ∀ xs : List String, xs ≠ [] →
        eraseLast ⟨commaTerminated xs⟩ = some ⟨(commaTerminated xs).dropLast⟩ := by
      intro xs hxs
      unfold eraseLast
      simp [hne xs hxs]
    rw [insertBuffers_eq]
    exact ⟨commaTerminated_getLast? _ hn, commaTerminated_getLast? _ hq, herase _ hn,
      herase _ hq⟩
  · intro h0
    rw [insertBuffers_eq, h0]
    exact ⟨rfl, rfl, rfl, rfl, hnil h0⟩

/-- C17, on the mapping of the test and on a mapping without fields. -/
theorem InsertStatement_defined_person :
    (InsertStatement PersonMapping).isSome = true ∧
    (insertBuffers PersonMapping).1.buf.getLast? = some ',' ∧
    InsertStatement ⟨"person", [], ""⟩ = none :=
  ⟨(InsertStatement_defined_iff PersonMapping).1.mpr (by decide),
    ((InsertStatement_defined_iff PersonMapping).2.1 (by decide)).1,
    ((InsertStatement_defined_iff ⟨"person", [], ""⟩).2.2 rfl).2.2.2.2⟩

/-- C18: for a mapping without fields the buffer of `CreateTableStatement()`
ends with the comma after `AUTOINCREMENT`, the seek lands on it, and the
statement is `CREATE TABLE IF NOT EXISTS <label>(id INTEGER PRIMARY KEY
AUTOINCREMENT)`, followed by `;<custom statements>` when those are not
empty. -/
theorem CreateTableStatement_without_fields (label custom : String) :
    (createBuffer ⟨label, [], custom⟩).buf
      = ("CREATE TABLE IF NOT EXISTS " ++ label ++ "(id INTEGER PRIMARY KEY AUTOINCREMENT").data
        ++ [','] ∧
    overwritten (createBuffer ⟨label, [], custom⟩) = some ',' ∧
    CreateTableStatement ⟨label, [], custom⟩
      = "CREATE TABLE IF NOT EXISTS " ++ label ++ "(id INTEGER PRIMARY KEY AUTOINCREMENT)"
        ++ (if custom = "" then "" else ";" ++ custom) := by
  have hP : ("CREATE TABLE IF NOT EXISTS " ++ label
        ++ "(id INTEGER PRIMARY KEY AUTOINCREMENT,").data
      = ("CREATE TABLE IF NOT EXISTS " ++ label ++ "(id INTEGER PRIMARY KEY AUTOINCREMENT").data
        ++ [','] := by
    simp [String.data_append, List.append_assoc]
  have hbuf : createBuffer ⟨label, [], custom⟩
      = OStringStream.atEnd (("CREATE TABLE IF NOT EXISTS " ++ label
          ++ "(id INTEGER PRIMARY KEY AUTOINCREMENT").data ++ [',']) := by
    rw [createBuffer_eq, List.map_nil, commaTerminated_nil, List.append_nil, hP]
  refine ⟨?_, ?_, ?_⟩
  · rw [hbuf]
    rfl
  · rw [hbuf, overwritten_atEnd]
    exact List.getLast?_concat _
  · apply String.ext
    rw [CreateTableStatement_pieces]
    simp [String.data_append, customSuffix, List.append_assoc]

/-- C19: for a mapping without fields `UpdateStatement()` overwrites the
space after `SET` and is `UPDATE <label> SET WHERE id=?`; for every mapping
the statement is `UPDATE <label> SET`, then nothing or a space and the
assignments, then ` WHERE id=?`. -/
theorem UpdateStatement_without_fields (label custom : String) (m : Mapping) :
    overwritten (updateBuffer ⟨label, [], custom⟩) = some ' ' ∧
    UpdateStatement ⟨label, [], custom⟩ = "UPDATE " ++ label ++ " SET WHERE id=?" ∧
    UpdateStatement m
      = "UPDATE " ++ m.getLabel ++ " SET"
        ++ (if m.fields.isEmpty then ""
            else " " ++ String.intercalate "," (m.fields.map (fun f => f.name ++ "=?")))
        ++ " WHERE id=?" := by
  have hP : ("UPDATE " ++ label ++ " SET ").data
      = ("UPDATE " ++ label ++ " SET").data ++ [' '] := by
    simp [String.data_append, List.append_assoc]
  refine ⟨?_, ?_, ?_⟩
  · rw [updateBuffer_eq, overwritten_atEnd, List.map_nil, commaTerminated_nil, List.append_nil,
      hP]
    exact List.getLast?_concat _
  · apply String.ext
    rw [UpdateStatement_pieces_nil _ rfl]
    simp [String.data_append, List.append_assoc]
  · apply String.ext
    cases hf : m.fields with
    | nil =>
      rw [UpdateStatement_pieces_nil m hf]
      simp [String.data_append, List.append_assoc]
    | cons f fs =>
      rw [UpdateStatement_pieces_cons m f fs hf]
      simp only [List.isEmpty_cons, Bool.false_eq_true, if_false, List.map_cons,
        String.data_append, intercalate_cons_data]
      simp [List.append_assoc, List.map_map, Function.comp_def]

end dm.SqlStatementBuilder
